import Mathlib

/-!
Verification of the dataflash log reader (`pymavlink/DFReader.py`).

The Python source is shallowly embedded below.  Conventions used throughout:

* Python numbers are modelled exactly: `int` as `ℤ` (or `ℕ` for byte data and
  counters that are manifestly nonnegative), `float` as `ℚ`.  Floating-point
  rounding is not modelled; all arithmetic in the source that the claims are
  about is decimal-scale arithmetic whose exact value is rational.
* Python code that can raise an exception is modelled in `Except String`;
  the error string names the Python exception.
* Python `dict`s (which are only read through lookups and updated through
  single-key assignment in this source) are modelled as association lists with
  replace-or-append assignment (`dictSet`) and first-match lookup (`dictGet`).
* The physical decoders hand records to `_fill_msg_queue` one at a time via
  `_parse_next`; for the queue/timestamp layer the decoder is abstracted as
  the list of records it will yield before returning end-of-stream.
-/

set_option maxRecDepth 8000

/- Rational arithmetic is marked irreducible upstream purely as a guard
against accidental unfolding; the kernel evaluates it fine.  Restoring
reducibility lets concrete runs of the embedded decoders be settled by
`decide`/`rfl`. -/
set_option allowUnsafeReducibility true
attribute [semireducible] Rat.mul Rat.add Rat.div Rat.sub Rat.neg Rat.inv Rat.ofScientific

namespace DF

/-- Semantic output type of a field: the `int` / `float` / `str` entry of
`FORMAT_TO_STRUCT`. -/
inductive SemKind where
  | int
  | float
  | str
deriving DecidableEq, Repr

/-- A decoded Python value: an `int`, a `float` (modelled exactly as `ℚ`),
or a `str`. -/
inductive Value where
  | vint (n : ℤ)
  | vfloat (q : ℚ)
  | vstr (s : String)
deriving DecidableEq, Repr

/-- The fixed `FORMAT_TO_STRUCT` table: struct code, optional fixed-point
multiplier, semantic type. -/
def FORMAT_TO_STRUCT : Char → Option (String × Option ℚ × SemKind)
  | 'b' => some ("b", none, .int)
  | 'B' => some ("B", none, .int)
  | 'h' => some ("h", none, .int)
  | 'H' => some ("H", none, .int)
  | 'i' => some ("i", none, .int)
  | 'I' => some ("I", none, .int)
  | 'f' => some ("f", none, .float)
  | 'n' => some ("4s", none, .str)
  | 'N' => some ("16s", none, .str)
  | 'Z' => some ("64s", none, .str)
  | 'c' => some ("h", some (0.01 : ℚ), .float)
  | 'C' => some ("H", some (0.01 : ℚ), .float)
  | 'e' => some ("i", some (0.01 : ℚ), .float)
  | 'E' => some ("I", some (0.01 : ℚ), .float)
  | 'L' => some ("i", some (1/10000000 : ℚ), .float)
  | 'M' => some ("b", none, .int)
  | 'q' => some ("q", none, .int)
  | 'Q' => some ("Q", none, .int)
  | _ => none

/-- Characters stripped by Python `str.rstrip()` with no argument. -/
def pyWhitespace : List Char := [' ', '\t', '\n', '\r', '\x0b', '\x0c']

/-- Python `s.rstrip()`. -/
def pyRstrip (s : String) : String :=
  String.mk ((s.toList.reverse.dropWhile (fun c => c ∈ pyWhitespace)).reverse)

/-- Python `s.rstrip('\0')` (used on `fmt.name`). -/
def rstripNull (s : String) : String :=
  String.mk ((s.toList.reverse.dropWhile (fun c => c = '\x00')).reverse)

/-- Python `s.strip()` (both ends), as used by `int()` / `float()` on
string arguments. -/
def pyStrip (s : String) : String :=
  String.mk (((s.toList.dropWhile (fun c => c ∈ pyWhitespace)).reverse.dropWhile
    (fun c => c ∈ pyWhitespace)).reverse)

/-- `null_term`: truncate a string at the first embedded NUL. -/
def nullTermStr (s : String) : String :=
  String.mk (s.toList.takeWhile (fun c => c ≠ '\x00'))

/-- Python `str.split` with a one-character separator (used as
`columns.split(',')` and inside `float()`). -/
def split1 (a : Char) : List Char → List (List Char)
  | [] => [[]]
  | c :: rest =>
    if c = a then [] :: split1 a rest
    else
      match split1 a rest with
      | [] => [[c]]
      | h :: t => (c :: h) :: t

/-- Python `str.split` with a two-character separator (used as
`s.split(", ")`): splits at non-overlapping occurrences, left to right. -/
def split2 (a b : Char) : List Char → List (List Char)
  | [] => [[]]
  | [c] => [[c]]
  | c :: d :: rest =>
    if c = a ∧ d = b then [] :: split2 a b rest
    else
      match split2 a b (d :: rest) with
      | [] => [[c]]
      | h :: t => (c :: h) :: t

/-- `s.split(',')`. -/
def pySplitComma (s : String) : List String :=
  (split1 ',' s.toList).map (fun cs => String.mk cs)

/-- `s.split(", ")`. -/
def pySplitCommaSpace (s : String) : List String :=
  (split2 ',' ' ' s.toList).map (fun cs => String.mk cs)

/-- Digit-string to number; `none` if empty or any char is not a digit. -/
def digitsToNat (cs : List Char) : Option ℕ :=
  if cs = [] then none
  else if cs.all Char.isDigit then
    some (cs.foldl (fun a c => a * 10 + (c.toNat - 48)) 0)
  else none

/-- Python `int(s)` on a string: optional surrounding whitespace, optional
sign, decimal digits; anything else raises `ValueError`. -/
def pyParseInt (s : String) : Except String ℤ :=
  match (pyStrip s).toList with
  | '-' :: rest =>
    match digitsToNat rest with
    | some n => .ok (-(n : ℤ))
    | none => .error ("ValueError: invalid literal for int")
  | '+' :: rest =>
    match digitsToNat rest with
    | some n => .ok ((n : ℤ))
    | none => .error ("ValueError: invalid literal for int")
  | t =>
    match digitsToNat t with
    | some n => .ok ((n : ℤ))
    | none => .error ("ValueError: invalid literal for int")

/-- Helper for `pyParseFloat`: unsigned decimal, optionally with a point. -/
def parseUnsignedFloat (u : List Char) : Except String ℚ :=
  match split1 '.' u with
  | [a] =>
    match digitsToNat a with
    | some n => .ok ((n : ℚ))
    | none => .error ("ValueError: could not convert string to float")
  | [a, b] =>
    if a = [] ∧ b = [] then .error ("ValueError: could not convert string to float")
    else
      match (if a = [] then some 0 else digitsToNat a),
            (if b = [] then some 0 else digitsToNat b) with
      | some x, some y => .ok ((x : ℚ) + (y : ℚ) / (10 : ℚ) ^ b.length)
      | _, _ => .error ("ValueError: could not convert string to float")
  | _ => .error ("ValueError: could not convert string to float")

/-- Python `float(s)` on a string: optional whitespace, sign, decimal
digits with optional point.  (Exponent forms do not occur in these logs.) -/
def pyParseFloat (s : String) : Except String ℚ :=
  match (pyStrip s).toList with
  | '-' :: rest => do
    let q ← parseUnsignedFloat rest
    .ok (-q)
  | '+' :: rest => parseUnsignedFloat rest
  | t => parseUnsignedFloat t

/-- Python `int(x)`: identity on ints, truncation toward zero on floats,
parsing on strings. -/
def pyToInt : Value → Except String ℤ
  | .vint n => .ok n
  | .vfloat q => .ok (if q < 0 then -(⌊-q⌋) else ⌊q⌋)
  | .vstr s => pyParseInt s

/-- Python `float(x)`. -/
def pyToFloat : Value → Except String ℚ
  | .vint n => .ok ((n : ℚ))
  | .vfloat q => .ok q
  | .vstr s => pyParseFloat s

/-- Python `str(x)`.  (In this source it is only ever applied to values that
are already strings; the numeric cases use the canonical decimal form.) -/
def pyToStr : Value → String
  | .vstr s => s
  | .vint n => toString n
  | .vfloat q => toString q

/-- Apply a `msg_types` entry as Python calls it: `type(value)`. -/
def SemKind.conv : SemKind → Value → Except String Value
  | .int, v => do
    let n ← pyToInt v
    .ok (.vint n)
  | .float, v => do
    let q ← pyToFloat v
    .ok (.vfloat q)
  | .str, v => .ok (.vstr (pyToStr v))

instance instDecEqExcept {e a : Type} [DecidableEq e] [DecidableEq a] :
    DecidableEq (Except e a) := fun x y =>
  match x, y with
  | .ok v, .ok w => if h : v = w then isTrue (by rw [h]) else isFalse (by simp [h])
  | .error v, .error w => if h : v = w then isTrue (by rw [h]) else isFalse (by simp [h])
  | .ok _, .error _ => isFalse (by simp)
  | .error _, .ok _ => isFalse (by simp)

/-- Ordered-dict assignment `d[k] = v`: replace in place if the key exists,
else append. -/
def dictSet {α β : Type} [DecidableEq α] : List (α × β) → α → β → List (α × β)
  | [], k, v => [(k, v)]
  | (k', v') :: rest, k, v =>
    if k' = k then (k, v) :: rest else (k', v') :: dictSet rest k v

/-- Dict lookup `d[k]` / `k in d`. -/
def dictGet {α β : Type} [DecidableEq α] (d : List (α × β)) (k : α) : Option β :=
  match d with
  | [] => none
  | (k', v') :: rest => if k' = k then some v' else dictGet rest k

/-- `DFFormat`: field-layout descriptor for one message type. -/
structure DFFormat where
  name : String
  len : ℤ
  format : String
  columns : List String
  msg_struct : String
  msg_mults : List (Option ℚ)
  msg_types : List SemKind
deriving DecidableEq, Repr

/-- The constructor loop of `DFFormat.__init__`: walk the format chars,
stopping at an embedded NUL, translating each through `FORMAT_TO_STRUCT`;
an unknown char raises. -/
def fmtFields (nm : String) : List Char → Except String (String × List (Option ℚ) × List SemKind)
  | [] => .ok ("", [], [])
  | c :: rest =>
    if c.toNat = 0 then .ok ("", [], [])
    else
      match FORMAT_TO_STRUCT c with
      | some (s, mul, ty) => do
        let (s', ms, ts) ← fmtFields nm rest
        .ok (s ++ s', mul :: ms, ty :: ts)
      | none => .error ("Unsupported format char: " ++ String.mk [c] ++ " in message " ++ nm)

/-- `DFFormat(name, len, format, columns)`. -/
def DFFormat.mk? (name : String) (len : ℤ) (format : String) (columns : String) :
    Except String DFFormat := do
  let (s, ms, ts) ← fmtFields name format.toList
  .ok { name := name, len := len, format := format,
        columns := pySplitComma columns,
        msg_struct := "<" ++ s, msg_mults := ms, msg_types := ts }

/-- `DFMessage`: a decoded record.  `d` is the ordered field dict,
`fieldnames` the ordered name list, `timestamp` the `_timestamp` attribute
assigned later by the queue-fill algorithm. -/
structure DFMessage where
  fmt : DFFormat
  d : List (String × Value)
  fieldnames : List String
  timestamp : Option ℚ
deriving DecidableEq, Repr

def DFMessage.get_type (m : DFMessage) : String := m.fmt.name

/-- Attribute access `m.<name>` for decoded fields. -/
def DFMessage.attr (m : DFMessage) (name : String) : Except String Value :=
  match dictGet m.d name with
  | some v => .ok v
  | none => .error ("AttributeError: " ++ name)

/-- Attribute access in a numeric context (times and week numbers; these
fields carry numeric format codes). -/
def DFMessage.num (m : DFMessage) (name : String) : Except String ℚ := do
  match ← m.attr name with
  | .vint n => .ok ((n : ℚ))
  | .vfloat q => .ok q
  | .vstr _ => .error ("TypeError: str in numeric context")

/-- One iteration of the `DFMessage.__init__` loop for a single field:
type conversion (skipped for raw `M` fields unless a scaled view is
requested), NUL truncation for text fields, then the fixed-point
multiplier when `apply_multiplier` is set. -/
def dfmField (fc : Char) (mul : Option ℚ) (ty : SemKind) (e : Value)
    (apply_multiplier : Bool) : Except String Value := do
  let v ← if fc ≠ 'M' ∨ apply_multiplier = true then ty.conv e else .ok e
  let v := if ty = .str then .vstr (nullTermStr (pyToStr v)) else v
  match mul, apply_multiplier with
  | some m, true =>
    match v with
    | .vint n => .ok (.vfloat ((n : ℚ) * m))
    | .vfloat q => .ok (.vfloat (q * m))
    | .vstr _ => .error ("TypeError: cannot multiply str by float")
  | _, _ => .ok v

/-- The `DFMessage.__init__` loop over `range(len(fmt.columns))`, walking
`msg_mults`, `msg_types`, the raw format string and `elements` at the same
index; a missing index raises. -/
def dfmBuild (am : Bool) :
    List String → List (Option ℚ) → List SemKind → List Char → List Value →
    List (String × Value) → Except String (List (String × Value))
  | [], _, _, _, _, acc => .ok acc
  | name :: cols, mults, types, fchars, elems, acc =>
    match mults, types, fchars, elems with
    | mul :: mults', ty :: types', fc :: fchars', e :: elems' => do
      let v ← dfmField fc mul ty e am
      dfmBuild am cols mults' types' fchars' elems' (dictSet acc name v)
    | _, _, _, _ => .error ("IndexError in DFMessage")

/-- `DFMessage(fmt, elements, apply_multiplier)`. -/
def DFMessage.mk? (fmt : DFFormat) (elements : List Value) (apply_multiplier : Bool) :
    Except String DFMessage := do
  let d ← dfmBuild apply_multiplier fmt.columns fmt.msg_mults fmt.msg_types
    fmt.format.toList elements []
  .ok { fmt := fmt, d := d, fieldnames := fmt.columns, timestamp := none }

/-- `DFMessage.add_value`. -/
def DFMessage.add_value (m : DFMessage) (name : String) (v : Value) : DFMessage :=
  { m with d := dictSet m.d name v, fieldnames := m.fieldnames ++ [name] }

/-- The GPS epoch constant of `_get_gps_time`.  The source runs under
Python 2, so `(1980-1969)/4` is integer division and evaluates to `2`. -/
def gpsEpoch : ℕ := 86400 * (10 * 365 + (1980 - 1969) / 4 + 1 + 6 - 2)

/-- `DFReader._get_gps_time`: returns the Python value of the local
variable `time` (which may be `None`), or the exception the body raises. -/
def getGpsTime (gps : DFMessage) : Except String (Option ℚ) := do
  if "T" ∈ gps.fieldnames then do
    let t ← gps.num "T"
    .ok (some (t * (0.001 : ℚ)))
  else do
    let time1 : Option ℚ ←
      if "Time" ∈ gps.fieldnames then do
        let t ← gps.num "Time"
        pure (some (t * (0.001 : ℚ)))
      else pure none
    let time2 : Option ℚ ←
      if "TimeMS" ∈ gps.fieldnames then do
        let t ← gps.num "TimeMS"
        pure (some (t * (0.001 : ℚ)))
      else pure time1
    if "Week" ∈ gps.fieldnames then do
      let w ← gps.num "Week"
      match time2 with
      | none => .error ("TypeError: unsupported operand types for +: int and NoneType")
      | some t => .ok (some ((gpsEpoch : ℚ) + 86400 * 7 * w + t - 15))
    else .ok time2

/-- Python truthiness of the `_get_gps_time` result: `None` and `0.0`
are falsy. -/
def truthyTime : Option ℚ → Bool
  | none => false
  | some q => decide (q ≠ 0)

/-- `counts.get(m_type, 0) + 1`. -/
def bumpCount (counts : List (String × ℤ)) (ty : String) : List (String × ℤ) :=
  dictSet counts ty (((dictGet counts ty).getD 0) + 1)

/-- Python division (raises `ZeroDivisionError` on a zero denominator). -/
def pyDiv (a b : ℚ) : Except String ℚ :=
  if b = 0 then .error ("ZeroDivisionError: division by zero") else .ok (a / b)

/-- The state `_fill_msg_queue` works on: the queue, `last_gps_time`
and `msg_periods` (the rest of the reader state is untouched by it). -/
structure FillState where
  queue : List DFMessage
  last_gps_time : Option ℚ
  msg_periods : List (String × ℚ)
deriving DecidableEq, Repr

/-- The reader state right after `_rewind`. -/
def initFillState : FillState := { queue := [], last_gps_time := none, msg_periods := [] }

/-- `while len(self.queue) and self.queue.pop().get_type() != 'GPS'`, acting
on the reversed queue (`pop` takes the last element).  Note that the `GPS`
record that stops the loop has itself already been popped. -/
def popToGPSrev : List DFMessage → List DFMessage
  | [] => []
  | m :: rest => if m.get_type = "GPS" then rest else popToGPSrev rest

def popToGPS (q : List DFMessage) : List DFMessage :=
  (popToGPSrev q.reverse).reverse

/-- Sort key order used by `self.queue.sort(reverse=True, key=...)`:
Python 2 sorts `None` below every number. -/
def optTimeLe : Option ℚ → Option ℚ → Prop
  | none, _ => True
  | some _, none => False
  | some a, some b => a ≤ b

instance instDecOptTimeLe : ∀ a b, Decidable (optTimeLe a b)
  | none, none => isTrue trivial
  | none, some _ => isTrue trivial
  | some _, none => isFalse (fun h => h)
  | some a, some b => inferInstanceAs (Decidable (a ≤ b))

/-- The comparison `sort(reverse=True, key=lambda x: x._timestamp)` sorts
by: `a` goes before `b` iff `b`'s timestamp is at most `a`'s.  Python's
sort is stable, as is `List.insertionSort`, so the result coincides. -/
def queueRel (a b : DFMessage) : Prop := optTimeLe b.timestamp a.timestamp

instance : DecidableRel queueRel := fun _ _ => instDecOptTimeLe _ _

theorem optTimeLe_total : ∀ a b, optTimeLe a b ∨ optTimeLe b a
  | none, _ => Or.inl trivial
  | some _, none => Or.inr trivial
  | some a, some b => by
    rcases le_total a b with h | h
    · exact Or.inl h
    · exact Or.inr h

theorem optTimeLe_trans : ∀ {a b c}, optTimeLe a b → optTimeLe b c → optTimeLe a c
  | none, _, _, _, _ => trivial
  | some _, none, _, h, _ => h.elim
  | some _, some _, none, _, h => h.elim
  | some _, some _, some _, hab, hbc => le_trans hab hbc

instance : IsTotal DFMessage queueRel where
  total a b := optTimeLe_total b.timestamp a.timestamp

instance : IsTrans DFMessage queueRel where
  trans _ _ _ hab hbc := optTimeLe_trans hbc hab

/-- One iteration of the timestamp-assignment `for` loop in
`_fill_msg_queue` (lines 208-223): returns the record with its
`_timestamp` set, the updated countdown dict and `msg_periods`. -/
def assignStep (gps_time gps_time_delta : ℚ) (counts : List (String × ℤ))
    (i : DFMessage) (countdown : List (String × ℤ)) (periods : List (String × ℚ)) :
    Except String (DFMessage × List (String × ℤ) × List (String × ℚ)) := do
  let i_type := i.get_type
  let step1 : DFMessage ←
    if i_type = "GPS" ∨ i_type = "GPS2" then do
      let t ← getGpsTime i
      pure { i with timestamp := t }
    else pure i
  if (i_type = "GPS" ∨ i_type = "GPS2") ∧ truthyTime step1.timestamp = true then
    pure (step1, countdown, periods)
  else if "T" ∈ i.fieldnames then do
    let t ← i.num "T"
    pure ({ step1 with timestamp := some t }, countdown, periods)
  else do
    let cnt ←
      match dictGet counts i_type with
      | some c => Except.ok c
      | none => .error ("KeyError: counts")
    let p ← pyDiv gps_time_delta ((cnt : ℚ))
    let cd ←
      match dictGet countdown i_type with
      | some c => Except.ok c
      | none => .error ("KeyError: countdown")
    pure ({ step1 with timestamp := some (gps_time - p * (cd : ℚ) + p * (0.5 : ℚ)) },
      dictSet countdown i_type (cd - 1), dictSet periods i_type p)

/-- The timestamp-assignment `for` loop over the whole queue.  Returns the
assigned records together with the final values of the two local dicts
(`countdown` is dead after the loop; it is returned to state the loop's
behaviour compositionally). -/
def assignLoop (gps_time gps_time_delta : ℚ) (counts : List (String × ℤ)) :
    List DFMessage → List (String × ℤ) → List (String × ℚ) →
    Except String (List DFMessage × List (String × ℤ) × List (String × ℚ))
  | [], countdown, periods => .ok ([], countdown, periods)
  | i :: rest, countdown, periods => do
    let (m', cd', per') ← assignStep gps_time gps_time_delta counts i countdown periods
    let (ms, cdF, perF) ← assignLoop gps_time gps_time_delta counts rest cd' per'
    .ok (m' :: ms, cdF, perF)

/-- Lines 202-225 of `_fill_msg_queue`: the flush taken when a second
anchor was found (`gps_time` is `some`) or the stream ended (`gps_time`
and `m_type` are `none`).  The subtraction `gps_time - last_gps_time` is
evaluated before `counts[m_type]`, exactly as Python does. -/
def flushQueue (gps_time : Option ℚ) (m_type : Option String)
    (counts : List (String × ℤ)) (st : FillState) (rest : List DFMessage) :
    Except String (FillState × List DFMessage × Option ℕ) := do
  let countdown := counts
  let diff ←
    match gps_time, st.last_gps_time with
    | some a, some b => Except.ok (a - b)
    | _, _ => .error ("TypeError: unsupported operand type for -: NoneType")
  let cnt ←
    match m_type with
    | some ty =>
      (match dictGet counts ty with
       | some c => Except.ok c
       | none => Except.error ("KeyError: counts[m_type]"))
    | none => .error ("KeyError: counts[None]")
  let gps_time_delta := diff * ((cnt : ℚ))
  let gt ←
    match gps_time with
    | some t => Except.ok t
    | none => .error ("TypeError: NoneType gps_time")
  let (q', _, periods') ← assignLoop gt gps_time_delta counts st.queue countdown st.msg_periods
  let sorted := List.insertionSort queueRel q'
  .ok ({ queue := sorted, last_gps_time := gps_time, msg_periods := periods' },
    rest, some sorted.length)

/-- The `while True` loop of `_fill_msg_queue`.  `stream` is the sequence
of records the physical decoder will still yield (its end is
`_parse_next` returning `None`). -/
def fillLoop : List DFMessage → List (String × ℤ) → FillState →
    Except String (FillState × List DFMessage × Option ℕ)
  | [], counts, st =>
    let q' := popToGPS st.queue
    if q'.length = 0 then .ok ({ st with queue := q' }, [], some 0)
    else flushQueue none none counts { st with queue := q' } []
  | m :: rest, counts, st =>
    let m_type := m.get_type
    let counts' := bumpCount counts m_type
    let q' := st.queue ++ [m]
    if q'.length = 0 then .ok ({ st with queue := q' }, rest, some 0)
    else do
      let anchor : Option ℚ ←
        if m_type = "GPS" then do
          let t ← getGpsTime m
          pure (if truthyTime t then t else none)
        else pure none
      match anchor with
      | some gt =>
        (match st.last_gps_time with
         | none => fillLoop rest counts' { st with queue := q', last_gps_time := some gt }
         | some _ => flushQueue (some gt) (some m_type) counts' { st with queue := q' } rest)
      | none => fillLoop rest counts' { st with queue := q' }

/-- `DFReader._fill_msg_queue`.  Returns the new fill state, the unread
rest of the stream, and the Python return value (`none` models the bare
`return` taken when the queue is already non-empty). -/
def fillMsgQueue (stream : List DFMessage) (st : FillState) :
    Except String (FillState × List DFMessage × Option ℕ) :=
  if st.queue.length ≠ 0 then .ok (st, stream, none)
  else fillLoop stream [] st

/-! ### Session state and `recv_msg` -/

/-- The per-reader session state touched by `recv_msg`/`_update_state`
(the `'MAV' : self` entry of `messages`, which aliases the reader itself,
is only consumed by the external condition evaluator and is not
represented).  The mode-name lookups `mavutil.mode_string_apm` and
`mavutil.mode_string_acm` are external collaborators, passed as
parameters. -/
structure ReaderState where
  stream : List DFMessage
  fill : FillState
  messages : List (String × DFMessage)
  params : List (Value × Value)
  flightmode : String
deriving DecidableEq, Repr

/-- The `if type == 'MODE'` tail of `DFReader._update_state`. -/
def updateStateMode (modeApm modeAcm : ℤ → String) (m : DFMessage) (s : ReaderState) :
    Except String ReaderState :=
  if m.get_type = "MODE" then do
    let mv ← m.attr "Mode"
    match mv with
    | .vstr str => pure { s with flightmode := str.toUpper }
    | _ =>
      if "ModeNum" ∈ m.fieldnames then do
        let n ← m.attr "ModeNum"
        match n with
        | .vint k => pure { s with flightmode := modeApm k }
        | _ => .error ("TypeError: ModeNum")
      else
        match mv with
        | .vint k => pure { s with flightmode := modeAcm k }
        | _ => .error ("TypeError: Mode")
  else pure s

/-- `DFReader._update_state`. -/
def updateState (modeApm modeAcm : ℤ → String) (m : DFMessage) (s : ReaderState) :
    Except String ReaderState := do
  let ty := m.get_type
  let s := { s with messages := dictSet s.messages ty m }
  let s ←
    if ty = "PARM" then do
      let nm ← m.attr "Name"
      let v ← m.attr "Value"
      pure { s with params := dictSet s.params nm v }
    else pure s
  updateStateMode modeApm modeAcm m s

/-- `DFReader.recv_msg`: refill the queue if it is empty, then `pop()` the
last element of the queue and update the session state with it. -/
def recvMsg (modeApm modeAcm : ℤ → String) (s : ReaderState) :
    Except String (Option DFMessage × ReaderState) := do
  let (fillSt, stream') ←
    if s.fill.queue.length = 0 then do
      let (f, rest, _) ← fillMsgQueue s.stream s.fill
      pure (f, rest)
    else pure (s.fill, s.stream)
  if h : fillSt.queue.length = 0 then
    .ok (none, { s with fill := fillSt, stream := stream' })
  else do
    let m := fillSt.queue.getLast (by simpa using h)
    let s' := { s with fill := { fillSt with queue := fillSt.queue.dropLast },
                       stream := stream' }
    let s'' ← updateState modeApm modeAcm m s'
    .ok (some m, s'')

/-! ### The text physical decoder -/

/-- The mutable state of `DFReader_text`. -/
structure TextState where
  lines : List String
  line : ℕ
  formats : List (String × DFFormat)
  percent : ℚ
deriving DecidableEq, Repr

/-- The leading `while` loop of `DFReader_text._parse_next`: starting at
line `i`, rstrip and split each line, advancing past lines with fewer
than 2 tokens; returns the token list of the last line read (`none` if
the loop body never ran, leaving Python's `elements` unbound) and the new
line cursor. -/
def scanLines : List String → ℕ → Option (List String) → Option (List String) × ℕ
  | [], i, prev => (prev, i)
  | s :: rest, i, prev =>
    let elements := pySplitCommaSpace (pyRstrip s)
    if elements.length ≥ 2 then (some elements, i + 1)
    else scanLines rest (i + 1) (some elements)

/-- The "cope with empty structures" repair: a five-token line whose last
token is `","` gets that token replaced by an empty one and another empty
token appended. -/
def fixEmpty (elements : List String) : List String :=
  if elements.length = 5 ∧ elements.getLast? = some "," then
    elements.dropLast ++ ["", ""]
  else elements

/-- `DFReader_text._parse_next`. -/
def textParseNext (st : TextState) : Except String (Option DFMessage × TextState) := do
  let (elemsOpt, line') := scanLines (st.lines.drop st.line) st.line none
  let elements ←
    match elemsOpt with
    | some e => Except.ok e
    | none => .error ("NameError: elements is unbound")
  let elements := fixEmpty elements
  let percent := 100 * ((line' : ℚ) / ((st.lines.length : ℚ)))
  let st := { st with line := line', percent := percent }
  if st.line ≥ st.lines.length then
    .ok (none, st)
  else do
    let msg_type ←
      match elements.head? with
      | some t => Except.ok t
      | none => .error ("IndexError: elements[0]")
    match dictGet st.formats msg_type with
    | none => .ok (none, st)
    | some fmt =>
      if elements.length < fmt.format.length + 1 then
        .ok (none, st)
      else do
        let elements := elements.drop 1
        let name := rstripNull fmt.name
        let st ←
          if name = "FMT" then do
            let e1 ←
              match elements.get? 1 with
              | some x => Except.ok x
              | none => Except.error ("IndexError: elements[1]")
            let e2 ←
              match elements.get? 2 with
              | some x => Except.ok x
              | none => Except.error ("IndexError: elements[2]")
            let e3 ←
              match elements.get? 3 with
              | some x => Except.ok x
              | none => Except.error ("IndexError: elements[3]")
            let e4 ←
              match elements.get? 4 with
              | some x => Except.ok x
              | none => Except.error ("IndexError: elements[4]")
            let n ← pyParseInt e1
            let nf ← DFFormat.mk? e2 n e3 e4
            pure { st with formats := dictSet st.formats e2 nf }
          else pure st
        let m ← DFMessage.mk? fmt (elements.map (fun s => Value.vstr s)) false
        let m := m.add_value "line" (.vint (st.line : ℤ))
        .ok (some m, st)

/-- The bootstrap schema-declaration descriptor
`DFFormat('FMT', 89, 'BBnNZ', "Type,Length,Name,Format,Columns")`. -/
def fmtFMT : DFFormat :=
  { name := "FMT", len := 89, format := "BBnNZ",
    columns := ["Type", "Length", "Name", "Format", "Columns"],
    msg_struct := "<BB4s16s64s",
    msg_mults := [none, none, none, none, none],
    msg_types := [.int, .int, .str, .str, .str] }

/-- Initial text registry `{ 'FMT' : DFFormat(...) }`. -/
def textInitFormats : List (String × DFFormat) := [("FMT", fmtFMT)]

/-! ### The binary physical decoder -/

def HEAD1 : ℕ := 0xA3
def HEAD2 : ℕ := 0x95

/-- The mutable state of `DFReader_binary`.  `data` is the file's bytes.
The registry is keyed by `Value` because Python keys it by the raw
decoded `elements[0]` (an `int` for well-formed FMT records). -/
structure BinState where
  data : List ℕ
  offset : ℤ
  remaining : ℤ
  formats : List (Value × DFFormat)
  percent : ℚ
deriving DecidableEq, Repr

/-- Python list slicing `l[a:b]` for the nonnegative indices used here. -/
def listSlice (l : List ℕ) (a b : ℤ) : List ℕ :=
  (l.take b.toNat).drop a.toNat

/-- `null_term` applied to a decoded element (raises `AttributeError` on a
non-string, as Python's `str.find` access would). -/
def valueNullTerm : Value → Except String String
  | .vstr s => .ok (nullTermStr s)
  | _ => .error ("AttributeError: find")

/-- A decoded element used as the declared record length (an `int` for
well-formed FMT records). -/
def valueAsLen : Value → Except String ℤ
  | .vint n => .ok n
  | _ => .error ("TypeError: length")

/-- `DFReader_binary._parse_next`.  `struct.unpack` is the Python standard
library's fixed-layout codec, an external collaborator here: it is passed
in as `unpack`, mapping the layout's struct string and the body bytes to
the decoded elements (or a struct.error). -/
def binParseNext (unpack : String → List ℕ → Except String (List Value)) (st : BinState) :
    Except String (Option DFMessage × BinState) := do
  if (st.data.length : ℤ) - st.offset < 3 then
    .ok (none, st)
  else do
    let hdr := listSlice st.data st.offset (st.offset + 3)
    match hdr with
    | [h0, h1, h2] =>
      if h0 ≠ HEAD1 ∨ h1 ≠ HEAD2 then
        .ok (none, st)
      else do
        let msg_type := h2
        let offset := st.offset + 3
        let remaining := st.remaining - 3
        match dictGet st.formats (.vint (msg_type : ℤ)) with
        | none => .error ("Unknown message type")
        | some fmt =>
          if remaining < fmt.len - 3 then
            .ok (none, { st with offset := offset, remaining := remaining })
          else do
            let body := listSlice st.data offset (offset + (fmt.len - 3))
            let elements ← unpack fmt.msg_struct body
            let name := nullTermStr fmt.name
            let doReg ←
              if name = "FMT" then do
                let e0 ←
                  match elements.get? 0 with
                  | some x => Except.ok x
                  | none => Except.error ("IndexError: elements[0]")
                pure (!(dictGet st.formats e0).isSome)
              else pure false
            let formats' ←
              if doReg = true then do
                let e0 ←
                  match elements.get? 0 with
                  | some x => Except.ok x
                  | none => Except.error ("IndexError: elements[0]")
                let e1 ←
                  match elements.get? 1 with
                  | some x => Except.ok x
                  | none => Except.error ("IndexError: elements[1]")
                let e2 ←
                  match elements.get? 2 with
                  | some x => Except.ok x
                  | none => Except.error ("IndexError: elements[2]")
                let e3 ←
                  match elements.get? 3 with
                  | some x => Except.ok x
                  | none => Except.error ("IndexError: elements[3]")
                let e4 ←
                  match elements.get? 4 with
                  | some x => Except.ok x
                  | none => Except.error ("IndexError: elements[4]")
                let nm ← valueNullTerm e2
                let ln ← valueAsLen e1
                let fs ← valueNullTerm e3
                let cs ← valueNullTerm e4
                let nf ← DFFormat.mk? nm ln fs cs
                pure (dictSet st.formats e0 nf)
              else pure st.formats
            let offset' := offset + (fmt.len - 3)
            let remaining' := remaining - (fmt.len - 3)
            let m ← DFMessage.mk? fmt elements true
            let percent := 100 * ((offset' : ℚ) / ((st.data.length : ℚ)))
            .ok (some m, { data := st.data, offset := offset', remaining := remaining',
                           formats := formats', percent := percent })
    | _ => .error ("IndexError: hdr")

/-- Initial binary registry `{ 0x80 : DFFormat(...) }`. -/
def binInitFormats : List (Value × DFFormat) := [(.vint 0x80, fmtFMT)]

/-! ### Generic dictionary lemmas -/

theorem dictGet_dictSet_self {α β : Type} [DecidableEq α] (d : List (α × β)) (k : α) (v : β) :
    dictGet (dictSet d k v) k = some v := by
  induction d with
  | nil => simp [dictSet, dictGet]
  | cons p rest ih =>
    obtain ⟨k', v'⟩ := p
    by_cases h : k' = k
    · simp [dictSet, dictGet, h]
    · simp [dictSet, dictGet, h, ih]

theorem dictGet_dictSet_ne {α β : Type} [DecidableEq α] (d : List (α × β)) (k k' : α) (v : β)
    (h : k' ≠ k) : dictGet (dictSet d k' v) k = dictGet d k := by
  induction d with
  | nil => simp [dictSet, dictGet, h]
  | cons p rest ih =>
    obtain ⟨k₀, v₀⟩ := p
    by_cases h₀ : k₀ = k'
    · simp [dictSet, dictGet, h₀, h]
    · simp only [dictSet, dictGet, if_neg h₀]
      by_cases h₁ : k₀ = k <;> simp [h₁, ih]

theorem dictSet_dictSet_self {α β : Type} [DecidableEq α] (d : List (α × β)) (k : α) (v w : β) :
    dictSet (dictSet d k v) k w = dictSet d k w := by
  induction d with
  | nil => simp [dictSet]
  | cons p rest ih =>
    obtain ⟨k₀, v₀⟩ := p
    by_cases h : k₀ = k
    · simp [dictSet, h]
    · simp [dictSet, h, ih]

theorem dictGet_isSome_dictSet {α β : Type} [DecidableEq α] (d : List (α × β)) (k k' : α)
    (v : β) (h : (dictGet d k).isSome) : (dictGet (dictSet d k' v) k).isSome := by
  by_cases hk : k' = k
  · subst hk
    simp [dictGet_dictSet_self]
  · rwa [dictGet_dictSet_ne _ _ _ _ hk]

/-! ### Claim C7: GPS time derivation -/

/-- C7: for a GPS record without a `T` field but with a millisecond time
field (`Time` or `TimeMS`) and a `Week` field, `_get_gps_time` returns
`GPS_epoch + 604800*Week + 0.001*time_ms - 15` where the epoch constant
`86400*(10*365 + (1980-1969)/4 + 1 + 6 - 2)` equals `315964800` (Python 2
integer division); and a `T` field, when present, takes priority and
yields `T * 0.001` directly. -/
theorem C7_gps_time_derivation :
    ((gpsEpoch : ℚ) = 315964800)
    ∧ (∀ g t, "T" ∈ g.fieldnames → g.num "T" = .ok t →
        getGpsTime g = .ok (some (t * 0.001)))
    ∧ (∀ g ms w, "T" ∉ g.fieldnames → "Time" ∉ g.fieldnames →
        "TimeMS" ∈ g.fieldnames → g.num "TimeMS" = .ok ms →
        "Week" ∈ g.fieldnames → g.num "Week" = .ok w →
        getGpsTime g = .ok (some ((315964800 : ℚ) + 604800 * w + 0.001 * ms - 15)))
    ∧ (∀ g ms w, "T" ∉ g.fieldnames → "Time" ∈ g.fieldnames → g.num "Time" = .ok ms →
        "TimeMS" ∉ g.fieldnames → "Week" ∈ g.fieldnames → g.num "Week" = .ok w →
        getGpsTime g = .ok (some ((315964800 : ℚ) + 604800 * w + 0.001 * ms - 15))) := by
  have hep : (gpsEpoch : ℚ) = 315964800 := by norm_num [gpsEpoch]
  refine ⟨hep, ?_, ?_, ?_⟩
  · intro g t hT hnum
    simp [getGpsTime, hT, hnum, Bind.bind, Except.bind]
  · intro g ms w hT hTime hTMS hnum hW hwnum
    simp only [getGpsTime, hT, hTime, hTMS, hW, hnum, hwnum, if_true, if_false,
      ite_true, ite_false, if_pos, Bind.bind, Except.bind, Pure.pure, Except.pure,
      if_neg, not_false_iff]
    simp [hT, hTime, hTMS, hW, hep]
    ring
  · intro g ms w hT hTime hnum hTMS hW hwnum
    simp only [getGpsTime, hT, hTime, hTMS, hW, hnum, hwnum, Bind.bind, Except.bind,
      Pure.pure, Except.pure]
    simp [hT, hTime, hTMS, hW, hep]
    ring

/-- Witness for C7: a record with `TimeMS = 100000` ms and `Week = 2000`
derives `315964800 + 604800*2000 + 100 - 15`, and a record with
`T = 123000` derives `123`. -/
theorem C7_gps_time_derivation_witness :
    getGpsTime { fmt := fmtFMT, d := [("TimeMS", .vint 100000), ("Week", .vint 2000)],
                 fieldnames := ["TimeMS", "Week"], timestamp := none }
      = .ok (some ((1525564885 : ℚ)))
    ∧ getGpsTime { fmt := fmtFMT, d := [("T", .vint 123000)],
                   fieldnames := ["T"], timestamp := none }
      = .ok (some ((123 : ℚ))) := by
  constructor
  · rw [C7_gps_time_derivation.2.2.1 _ 100000 2000 (by decide) (by decide) (by decide)
      (by decide) (by decide) (by decide)]
    decide
  · rw [C7_gps_time_derivation.2.1 _ 123000 (by decide) (by decide)]
    decide

/-! ### Claim C4: fixed-point scaling text vs binary -/

/-- C4: for every field whose format code carries a fixed-point scale
factor (`c`, `C`, `e`, `E`, `L`), the per-field decode of
`DFMessage.__init__` with `apply_multiplier=False` (as `DFReader_text`
passes) is exactly the semantic-type conversion, never scaled; and with
`apply_multiplier=True` (as `DFReader_binary` passes) the raw integer
from `struct.unpack` is always multiplied by the declared factor. -/
theorem C4_fixed_point_scaling (c : Char) (hc : c ∈ ['c', 'C', 'e', 'E', 'L'])
    (w : String) (sc : ℚ) (k : SemKind)
    (h : FORMAT_TO_STRUCT c = some (w, some sc, k)) :
    (∀ e, dfmField c (some sc) k e false = k.conv e)
    ∧ (∀ n : ℤ, dfmField c (some sc) k (.vint n) true = .ok (.vfloat ((n : ℚ) * sc))) := by
  have hk : k = SemKind.float := by
    fin_cases hc <;> simp [FORMAT_TO_STRUCT] at h <;> exact h.2.2.symm
  subst hk
  have hcM : c ≠ 'M' := by fin_cases hc <;> decide
  constructor
  · intro e
    simp only [dfmField, hcM, ne_eq, not_false_iff, true_or, if_true, Bind.bind, Except.bind]
    cases hconv : SemKind.conv SemKind.float e with
    | error err => rfl
    | ok v =>
      rcases e with n | q | s <;>
        simp only [SemKind.conv, pyToFloat, Bind.bind, Except.bind] at hconv ⊢
      · simp only [Except.ok.injEq] at hconv
        subst hconv
        rfl
      · simp only [Except.ok.injEq] at hconv
        subst hconv
        rfl
      · cases hp : pyParseFloat s with
        | error err => rw [hp] at hconv; exact absurd hconv (by simp)
        | ok q =>
          rw [hp] at hconv
          simp only [Except.ok.injEq] at hconv
          subst hconv
          rfl
  · intro n
    simp [dfmField, hcM, SemKind.conv, pyToFloat, Bind.bind, Except.bind]

/-- Witness for C4: code `c` (scale 0.01): the text path turns the raw
token `"1.5"` into `1.5` unscaled; the binary path turns the raw integer
`3` into `0.03`. -/
theorem C4_fixed_point_scaling_witness :
    dfmField 'c' (some (0.01 : ℚ)) .float (.vstr "1.5") false = .ok (.vfloat ((3 : ℚ) / 2))
    ∧ dfmField 'c' (some (0.01 : ℚ)) .float (.vint 3) true = .ok (.vfloat ((3 : ℚ) / 100)) := by
  obtain ⟨h1, h2⟩ := C4_fixed_point_scaling 'c' (by decide) "h" (0.01 : ℚ) .float (by rfl)
  constructor
  · rw [h1 (.vstr "1.5")]
    decide
  · rw [h2 3]
    decide

/-! ### Concrete fixtures used by several concrete runs -/

/-- A one-column `GPS` layout whose `T` field carries milliseconds. -/
def gpsFmtT : DFFormat :=
  { name := "GPS", len := 10, format := "i", columns := ["T"],
    msg_struct := "<i", msg_mults := [none], msg_types := [.int] }

/-- A one-column `ATT` layout with no time field. -/
def attFmtT : DFFormat :=
  { name := "ATT", len := 10, format := "h", columns := ["Roll"],
    msg_struct := "<h", msg_mults := [none], msg_types := [.int] }

/-- A one-column `GPS2` layout whose `T` field carries milliseconds. -/
def gps2FmtT : DFFormat :=
  { name := "GPS2", len := 10, format := "i", columns := ["T"],
    msg_struct := "<i", msg_mults := [none], msg_types := [.int] }

/-- A decoded `GPS` record with `T = tms` milliseconds. -/
def mkGPS (tms : ℤ) : DFMessage :=
  { fmt := gpsFmtT, d := [("T", .vint tms)], fieldnames := ["T"], timestamp := none }

/-- A decoded `ATT` record. -/
def mkATT (r : ℤ) : DFMessage :=
  { fmt := attFmtT, d := [("Roll", .vint r)], fieldnames := ["Roll"], timestamp := none }

/-- A decoded `GPS2` record with `T = tms` milliseconds. -/
def mkGPS2 (tms : ℤ) : DFMessage :=
  { fmt := gps2FmtT, d := [("T", .vint tms)], fieldnames := ["T"], timestamp := none }

/-- A well-formed text schema-declaration line (redeclaring `FMT` itself,
whose re-registration rebuilds the identical descriptor). -/
def fmtLine : String := "FMT, 128, 89, FMT, BBnNZ, Type,Length,Name,Format,Columns"

/-! ### Claim C10: the text decoder never returns the final line -/

/-- C10: a `_parse_next` call on the text decoder that consumes the last
line returns end-of-stream (`none`) even when that line is a well-formed
record of a registered type, because the end-of-lines check runs after
the line cursor has advanced past the just-read line. -/
theorem C10_text_last_line_never_returned (st : TextState) (s : String)
    (hdrop : st.lines.drop st.line = [s])
    (htok : (pySplitCommaSpace (pyRstrip s)).length ≥ 2)
    (hreg : (dictGet st.formats
      ((fixEmpty (pySplitCommaSpace (pyRstrip s))).headD "")).isSome)
    (hcols : Option.all
        (fun f => decide ((fixEmpty (pySplitCommaSpace (pyRstrip s))).length ≥
          f.format.length + 1))
        (dictGet st.formats ((fixEmpty (pySplitCommaSpace (pyRstrip s))).headD ""))
        = true) :
    textParseNext st = .ok (none, { st with line := st.lines.length, percent := 100 }) := by
  have hlt : st.line < st.lines.length := by
    by_contra h
    rw [List.drop_eq_nil_of_le (le_of_not_lt h)] at hdrop
    exact absurd hdrop (by simp)
  have hlen : st.lines.length = st.line + 1 := by
    have h1 : st.lines.length - st.line = 1 := by
      have := congrArg List.length hdrop
      simpa using this
    omega
  have hscan : scanLines (st.lines.drop st.line) st.line none
      = (some (pySplitCommaSpace (pyRstrip s)), st.line + 1) := by
    rw [hdrop]
    simp [scanLines, htok]
  have hper : 100 * (((st.line + 1 : ℕ) : ℚ) / ((st.lines.length : ℕ) : ℚ)) = 100 := by
    rw [hlen]
    rw [div_self (by positivity)]
    norm_num
  simp only [textParseNext, hscan, ge_iff_le, Bind.bind, Except.bind]
  rw [if_pos (by omega)]
  simp only [hper]
  rw [hlen]

/-- Witness for C10: a one-line log whose single line is a well-formed
schema-declaration record of the registered type `FMT`; the parse call
still returns `none`. -/
theorem C10_text_last_line_never_returned_witness :
    textParseNext { lines := [fmtLine], line := 0, formats := textInitFormats, percent := 0 }
      = .ok (none, { lines := [fmtLine], line := 1, formats := textInitFormats,
                     percent := 100 }) := by
  have h := C10_text_last_line_never_returned
    { lines := [fmtLine], line := 0, formats := textInitFormats, percent := 0 }
    fmtLine (by decide) (by decide) (by decide) (by decide)
  simpa using h

/-! ### Claim C6: unregistered text type -/

/-- Counterexample to C6: on a log whose first line has an unregistered
type name `XYZ` and whose second line is a decodable schema-declaration
record, the parse call consuming the `XYZ` line returns `none` — it does
not skip to the next line and return its record within the same call;
the record of line 2 is only produced by a second call. -/
theorem C6_counterexample :
    (textParseNext { lines := ["XYZ, 1, 2", fmtLine, "A, B"], line := 0,
                     formats := textInitFormats, percent := 0 }).map (fun p => p.1)
      = .ok none
    ∧ (textParseNext { lines := ["XYZ, 1, 2", fmtLine, "A, B"], line := 1,
                       formats := textInitFormats, percent := 100 / 3 }).map
        (fun p => (p.1.map (fun m => m.get_type), p.2.line))
      = .ok (some "FMT", 2) := by
  constructor
  · decide
  · decide

/-- C6 amended: a text line whose first token is an unregistered type
name makes that `_parse_next` call return `none` (the end-of-stream
signal), with the line cursor already advanced past the line, so a
subsequent call resumes at the next line; the call itself does not skip
ahead and decode the next line. -/
theorem C6_amended_unregistered_returns_none (st : TextState) (s : String)
    (rest : List String) (hdrop : st.lines.drop st.line = s :: rest) (hrest : rest ≠ [])
    (htok : (pySplitCommaSpace (pyRstrip s)).length ≥ 2)
    (hunreg : dictGet st.formats
      ((fixEmpty (pySplitCommaSpace (pyRstrip s))).headD "") = none) :
    textParseNext st =
      .ok (none,
        { st with
          line := st.line + 1,
          percent := 100 * (((st.line : ℚ) + 1) / ((st.lines.length : ℕ) : ℚ)) }) := by
  have hlt : st.line + 1 < st.lines.length := by
    have := congrArg List.length hdrop
    simp only [List.length_drop, List.length_cons] at this
    have hr : rest.length ≠ 0 := by
      intro h
      exact hrest (List.eq_nil_of_length_eq_zero h)
    omega
  have hscan : scanLines (st.lines.drop st.line) st.line none
      = (some (pySplitCommaSpace (pyRstrip s)), st.line + 1) := by
    rw [hdrop]
    simp [scanLines, htok]
  have hne : fixEmpty (pySplitCommaSpace (pyRstrip s)) ≠ [] := by
    have : pySplitCommaSpace (pyRstrip s) ≠ [] := by
      intro h
      rw [h] at htok
      simp at htok
    unfold fixEmpty
    split
    · simp
    · exact this
  have hhead : (fixEmpty (pySplitCommaSpace (pyRstrip s))).head?
      = some ((fixEmpty (pySplitCommaSpace (pyRstrip s))).headD "") := by
    cases hfe : fixEmpty (pySplitCommaSpace (pyRstrip s)) with
    | nil => exact absurd hfe hne
    | cons a t => simp
  simp only [textParseNext, hscan, ge_iff_le, Bind.bind, Except.bind]
  rw [if_neg (by omega)]
  simp only [hhead, hunreg]
  norm_num

/-! ### Claim C5: duplicate schema declarations -/

/-- A layout registered under type name `X` with column `A`. -/
def C5oldFmt : DFFormat :=
  { name := "X", len := 10, format := "b", columns := ["A"],
    msg_struct := "<b", msg_mults := [none], msg_types := [.int] }

/-- The layout built from the duplicate declaration `FMT, 20, 20, X, b, B`. -/
def C5newFmt : DFFormat :=
  { name := "X", len := 20, format := "b", columns := ["B"],
    msg_struct := "<b", msg_mults := [none], msg_types := [.int] }

/-- Text state with `X` already registered and a duplicate declaration
line for `X` pending. -/
def C5textState : TextState :=
  { lines := ["FMT, 20, 20, X, b, B", "A, B"], line := 0,
    formats := dictSet textInitFormats "X" C5oldFmt, percent := 0 }

/-- The decoded FMT record of the duplicate text declaration line. -/
def C5textMsg : DFMessage :=
  { fmt := fmtFMT,
    d := [("Type", .vint 20), ("Length", .vint 20), ("Name", .vstr "X"),
          ("Format", .vstr "b"), ("Columns", .vstr "B")],
    fieldnames := ["Type", "Length", "Name", "Format", "Columns"],
    timestamp := none }

/-- Binary state with id 5 already registered and an FMT record
re-declaring id 5 pending. -/
def C5binState : BinState :=
  { data := [0xA3, 0x95, 0x80] ++ List.replicate 86 0, offset := 0,
    remaining := 89, formats := dictSet binInitFormats (.vint 5) C5oldFmt,
    percent := 0 }

/-- The unpack collaborator used for the binary duplicate run: the FMT
body decodes to a declaration of id 5. -/
def C5unpack : String → List ℕ → Except String (List Value) :=
  fun s _ =>
    if s = "<BB4s16s64s"
    then .ok [.vint 5, .vint 10, .vstr "ATT", .vstr "b", .vstr "Roll"]
    else .error ("struct.error")

/-- The decoded FMT record of the binary duplicate declaration. -/
def C5binMsg : DFMessage :=
  { fmt := fmtFMT,
    d := [("Type", .vint 5), ("Length", .vint 10), ("Name", .vstr "ATT"),
          ("Format", .vstr "b"), ("Columns", .vstr "Roll")],
    fieldnames := ["Type", "Length", "Name", "Format", "Columns"],
    timestamp := none }

/-- Counterexample to C5: in the text decoder, a schema-declaration line
for the already-registered type name `X` does not leave the registry
entry unchanged — it replaces it with a descriptor built from the new
declaration. -/
theorem C5_counterexample :
    (textParseNext C5textState).map (fun p => dictGet p.2.formats "X")
      = .ok (some C5newFmt)
    ∧ ¬ ((textParseNext C5textState).map (fun p => dictGet p.2.formats "X")
          = .ok (some C5oldFmt)) := by
  constructor
  · decide
  · decide

/-- C5 amended: the binary decoder ignores a schema-declaration record
whose declared type id is already registered (the registry is returned
unchanged); the text decoder instead replaces the existing entry with a
descriptor built from the new declaration; in both decoders registry
entries are only added or replaced, never removed. -/
theorem C5_amended_registry_duplicates :
    (∀ (unpack : String → List ℕ → Except String (List Value)) (st : BinState)
       (ty : ℕ) (f0 : DFFormat) (elems : List Value) (e0 : Value) (m : DFMessage),
      3 ≤ (st.data.length : ℤ) - st.offset →
      listSlice st.data st.offset (st.offset + 3) = [HEAD1, HEAD2, ty] →
      dictGet st.formats (.vint (ty : ℤ)) = some f0 →
      ¬ (st.remaining - 3 < f0.len - 3) →
      unpack f0.msg_struct
        (listSlice st.data (st.offset + 3) (st.offset + 3 + (f0.len - 3))) = .ok elems →
      nullTermStr f0.name = "FMT" →
      elems.get? 0 = some e0 →
      (dictGet st.formats e0).isSome →
      DFMessage.mk? f0 elems true = .ok m →
      ∃ st', binParseNext unpack st = .ok (some m, st') ∧ st'.formats = st.formats)
    ∧ (∀ (st : TextState) (s : String) (restLines : List String) (f0 : DFFormat)
         (e1 e2 e3 e4 : String) (n : ℤ) (nf : DFFormat) (m : DFMessage),
      st.lines.drop st.line = s :: restLines → restLines ≠ [] →
      (pySplitCommaSpace (pyRstrip s)).length ≥ 2 →
      fixEmpty (pySplitCommaSpace (pyRstrip s)) = pySplitCommaSpace (pyRstrip s) →
      (pySplitCommaSpace (pyRstrip s)).headD "" = "FMT" →
      dictGet st.formats "FMT" = some f0 →
      ¬ ((pySplitCommaSpace (pyRstrip s)).length < f0.format.length + 1) →
      rstripNull f0.name = "FMT" →
      ((pySplitCommaSpace (pyRstrip s)).drop 1).get? 1 = some e1 →
      ((pySplitCommaSpace (pyRstrip s)).drop 1).get? 2 = some e2 →
      ((pySplitCommaSpace (pyRstrip s)).drop 1).get? 3 = some e3 →
      ((pySplitCommaSpace (pyRstrip s)).drop 1).get? 4 = some e4 →
      pyParseInt e1 = .ok n →
      DFFormat.mk? e2 n e3 e4 = .ok nf →
      DFMessage.mk? f0 (((pySplitCommaSpace (pyRstrip s)).drop 1).map
        (fun x => Value.vstr x)) false = .ok m →
      ∃ st', textParseNext st
          = .ok (some (m.add_value "line" (.vint ((st.line + 1 : ℕ) : ℤ))), st')
        ∧ st'.formats = dictSet st.formats e2 nf
        ∧ ∀ key, (dictGet st.formats key).isSome → (dictGet st'.formats key).isSome) := by
  constructor
  · intro unpack st ty f0 elems e0 m h3 hhdr hfmt hrem hunp hname he0 hdup hmsg
    refine ⟨{ data := st.data, offset := st.offset + 3 + (f0.len - 3),
              remaining := st.remaining - 3 - (f0.len - 3), formats := st.formats,
              percent := 100 * (((st.offset + 3 + (f0.len - 3) : ℤ) : ℚ)
                / ((st.data.length : ℕ) : ℚ)) }, ?_, rfl⟩
    simp only [binParseNext, Bind.bind, Except.bind, hhdr, hfmt, hunp, hname, he0, hmsg]
    rw [if_neg (by omega)]
    simp only [HEAD1, HEAD2]
    rw [if_neg (by simp)]
    rw [if_neg hrem]
    simp only [hdup, Bool.not_true, if_true, Pure.pure, Except.pure, Bool.false_eq_true,
      if_false]
  · intro st s restLines f0 e1 e2 e3 e4 n nf m hdrop hrest htok hfix hhead hfmt hlen
      hnameF he1 he2 he3 he4 hparse hmk hmsg
    have hlt : st.line + 1 < st.lines.length := by
      have := congrArg List.length hdrop
      simp only [List.length_drop, List.length_cons] at this
      have hr : restLines.length ≠ 0 := by
        intro h
        exact hrest (List.eq_nil_of_length_eq_zero h)
      omega
    have hscan : scanLines (st.lines.drop st.line) st.line none
        = (some (pySplitCommaSpace (pyRstrip s)), st.line + 1) := by
      rw [hdrop]
      simp [scanLines, htok]
    have hne : pySplitCommaSpace (pyRstrip s) ≠ [] := by
      intro h
      rw [h] at htok
      simp at htok
    have hhead' : (pySplitCommaSpace (pyRstrip s)).head? = some "FMT" := by
      cases hfe : pySplitCommaSpace (pyRstrip s) with
      | nil => exact absurd hfe hne
      | cons a t =>
        rw [hfe] at hhead
        simp at hhead
        simp [hhead]
    refine ⟨{ lines := st.lines, line := st.line + 1,
              formats := dictSet st.formats e2 nf,
              percent := 100 * (((st.line + 1 : ℕ) : ℚ) / ((st.lines.length : ℕ) : ℚ)) },
            ?_, rfl, ?_⟩
    · simp only [textParseNext, hscan, Bind.bind, Except.bind, hfix, hhead', hfmt,
        hnameF, he1, he2, he3, he4, hparse, hmk, hmsg]
      rw [if_neg (by omega)]
      rw [if_neg hlen]
      simp only [if_true, Pure.pure, Except.pure]
    · intro key hk
      exact dictGet_isSome_dictSet _ _ _ _ hk

/-- Witness for the amended C5: a binary FMT record re-declaring the
already-registered id 5 leaves the registry unchanged, and the text
duplicate declaration for `X` replaces the entry. -/
theorem C5_amended_registry_duplicates_witness :
    (∃ st', binParseNext C5unpack C5binState = .ok (some C5binMsg, st')
      ∧ st'.formats = C5binState.formats)
    ∧ (∃ st', textParseNext C5textState
        = .ok (some (C5textMsg.add_value "line" (.vint 1)), st')
      ∧ st'.formats = dictSet C5textState.formats "X" C5newFmt
      ∧ ∀ key, (dictGet C5textState.formats key).isSome →
          (dictGet st'.formats key).isSome) := by
  constructor
  · exact C5_amended_registry_duplicates.1 C5unpack C5binState 0x80 fmtFMT
      [.vint 5, .vint 10, .vstr "ATT", .vstr "b", .vstr "Roll"] (.vint 5) C5binMsg
      (by decide) (by decide) (by decide) (by decide) (by decide) (by decide) (by decide)
      (by decide) (by decide)
  · exact C5_amended_registry_duplicates.2 C5textState "FMT, 20, 20, X, b, B" ["A, B"]
      fmtFMT "20" "X" "b" "B" 20 C5newFmt C5textMsg
      (by decide) (by decide) (by decide) (by decide) (by decide) (by decide) (by decide)
      (by decide) (by decide) (by decide) (by decide) (by decide) (by decide) (by decide)
      (by decide)

/-- Witness for the amended C6: concrete three-line log with an
unregistered first line. -/
theorem C6_amended_unregistered_returns_none_witness :
    textParseNext { lines := ["XYZ, 1, 2", fmtLine, "A, B"], line := 0,
                    formats := textInitFormats, percent := 0 }
      = .ok (none, { lines := ["XYZ, 1, 2", fmtLine, "A, B"], line := 1,
                     formats := textInitFormats, percent := 100 / 3 }) := by
  have h := C6_amended_unregistered_returns_none
    { lines := ["XYZ, 1, 2", fmtLine, "A, B"], line := 0,
      formats := textInitFormats, percent := 0 }
    "XYZ, 1, 2" [fmtLine, "A, B"] (by decide) (by decide) (by decide) (by decide)
  rw [h]
  norm_num

/-! ### Claim C8: schema registration round trip -/

theorem DFFormat_mk_columns (name : String) (len : ℤ) (fmt cols : String) (f : DFFormat)
    (h : DFFormat.mk? name len fmt cols = .ok f) : f.columns = pySplitComma cols := by
  unfold DFFormat.mk? at h
  cases hf : fmtFields name fmt.toList with
  | error e =>
    rw [hf] at h
    exact absurd h (by simp [Bind.bind, Except.bind])
  | ok v =>
    obtain ⟨s, ms, ts⟩ := v
    rw [hf] at h
    simp only [Bind.bind, Except.bind, Except.ok.injEq] at h
    rw [← h]

theorem DFMessage_mk_fieldnames (f : DFFormat) (elems : List Value) (am : Bool)
    (m : DFMessage) (h : DFMessage.mk? f elems am = .ok m) : m.fieldnames = f.columns := by
  unfold DFMessage.mk? at h
  cases hd : dfmBuild am f.columns f.msg_mults f.msg_types f.format.toList elems [] with
  | error e =>
    rw [hd] at h
    exact absurd h (by simp [Bind.bind, Except.bind])
  | ok d =>
    rw [hd] at h
    simp only [Bind.bind, Except.bind, Except.ok.injEq] at h
    rw [← h]

/-- C8: decoding a binary schema-declaration record registers, under the
declared id, a layout whose column list is the comma-split of the
declared column string; decoding a record of that type afterwards
produces a record whose ordered field names are exactly that column
list. -/
theorem C8_schema_roundtrip :
    (∀ (unpack : String → List ℕ → Except String (List Value)) (st : BinState)
       (ty : ℕ) (f0 : DFFormat) (nid nlen : ℤ) (nm fs cs : String)
       (nf : DFFormat) (m1 : DFMessage),
      3 ≤ (st.data.length : ℤ) - st.offset →
      listSlice st.data st.offset (st.offset + 3) = [HEAD1, HEAD2, ty] →
      dictGet st.formats (.vint (ty : ℤ)) = some f0 →
      ¬ (st.remaining - 3 < f0.len - 3) →
      unpack f0.msg_struct
          (listSlice st.data (st.offset + 3) (st.offset + 3 + (f0.len - 3)))
        = .ok [.vint nid, .vint nlen, .vstr nm, .vstr fs, .vstr cs] →
      nullTermStr f0.name = "FMT" →
      dictGet st.formats (.vint nid) = none →
      DFFormat.mk? (nullTermStr nm) nlen (nullTermStr fs) (nullTermStr cs) = .ok nf →
      DFMessage.mk? f0 [.vint nid, .vint nlen, .vstr nm, .vstr fs, .vstr cs] true = .ok m1 →
      ∃ st', binParseNext unpack st = .ok (some m1, st')
        ∧ dictGet st'.formats (.vint nid) = some nf
        ∧ nf.columns = pySplitComma (nullTermStr cs))
    ∧ (∀ (unpack : String → List ℕ → Except String (List Value)) (st : BinState)
         (ty : ℕ) (nf : DFFormat) (elems : List Value) (m2 : DFMessage),
      3 ≤ (st.data.length : ℤ) - st.offset →
      listSlice st.data st.offset (st.offset + 3) = [HEAD1, HEAD2, ty] →
      dictGet st.formats (.vint (ty : ℤ)) = some nf →
      ¬ (st.remaining - 3 < nf.len - 3) →
      unpack nf.msg_struct
          (listSlice st.data (st.offset + 3) (st.offset + 3 + (nf.len - 3)))
        = .ok elems →
      nullTermStr nf.name ≠ "FMT" →
      DFMessage.mk? nf elems true = .ok m2 →
      ∃ st', binParseNext unpack st = .ok (some m2, st')
        ∧ m2.fieldnames = nf.columns) := by
  constructor
  · intro unpack st ty f0 nid nlen nm fs cs nf m1 h3 hhdr hfmt hrem hunp hname hnew hmk hmsg
    refine ⟨{ data := st.data, offset := st.offset + 3 + (f0.len - 3),
              remaining := st.remaining - 3 - (f0.len - 3),
              formats := dictSet st.formats (.vint nid) nf,
              percent := 100 * (((st.offset + 3 + (f0.len - 3) : ℤ) : ℚ)
                / ((st.data.length : ℕ) : ℚ)) }, ?_, ?_, ?_⟩
    · simp only [binParseNext, Bind.bind, Except.bind, hhdr, hfmt, hunp, hname, hmsg]
      rw [if_neg (by omega)]
      simp only [HEAD1, HEAD2]
      rw [if_neg (by simp)]
      rw [if_neg hrem]
      simp only [List.get?, hnew, Option.isSome_none, Bool.not_false, if_true,
        Pure.pure, Except.pure, valueNullTerm, valueAsLen, hmk]
    · exact dictGet_dictSet_self _ _ _
    · exact DFFormat_mk_columns _ _ _ _ _ hmk
  · intro unpack st ty nf elems m2 h3 hhdr hfmt hrem hunp hname hmsg
    refine ⟨{ data := st.data, offset := st.offset + 3 + (nf.len - 3),
              remaining := st.remaining - 3 - (nf.len - 3),
              formats := st.formats,
              percent := 100 * (((st.offset + 3 + (nf.len - 3) : ℤ) : ℚ)
                / ((st.data.length : ℕ) : ℚ)) }, ?_, ?_⟩
    · simp only [binParseNext, Bind.bind, Except.bind, hhdr, hfmt, hunp, hmsg]
      rw [if_neg (by omega)]
      simp only [HEAD1, HEAD2]
      rw [if_neg (by simp)]
      rw [if_neg hrem]
      rw [if_neg hname]
      simp only [Pure.pure, Except.pure, Bool.false_eq_true, if_false]
    · exact DFMessage_mk_fieldnames _ _ _ _ hmsg

/-- The layout declared by the C8 witness run: two columns. -/
def C8newFmt : DFFormat :=
  { name := "ATT", len := 10, format := "bb", columns := ["Roll", "Pitch"],
    msg_struct := "<bb", msg_mults := [none, none], msg_types := [.int, .int] }

/-- The unpack collaborator for the C8 witness runs. -/
def C8unpack : String → List ℕ → Except String (List Value) :=
  fun s _ =>
    if s = "<BB4s16s64s"
    then .ok [.vint 5, .vint 10, .vstr "ATT", .vstr "bb", .vstr "Roll,Pitch"]
    else if s = "<bb" then .ok [.vint 1, .vint 2]
    else .error ("struct.error")

/-- Binary state about to read the FMT record declaring id 5. -/
def C8st1 : BinState :=
  { data := [0xA3, 0x95, 0x80] ++ List.replicate 86 0, offset := 0,
    remaining := 89, formats := binInitFormats, percent := 0 }

/-- Binary state about to read a record of the newly declared type 5. -/
def C8st2 : BinState :=
  { data := [0xA3, 0x95, 5] ++ List.replicate 7 0, offset := 0,
    remaining := 10, formats := dictSet binInitFormats (.vint 5) C8newFmt,
    percent := 0 }

/-- The decoded FMT record of the C8 witness declaration. -/
def C8m1 : DFMessage :=
  { fmt := fmtFMT,
    d := [("Type", .vint 5), ("Length", .vint 10), ("Name", .vstr "ATT"),
          ("Format", .vstr "bb"), ("Columns", .vstr "Roll,Pitch")],
    fieldnames := ["Type", "Length", "Name", "Format", "Columns"],
    timestamp := none }

/-- The decoded record of the new type in the C8 witness. -/
def C8m2 : DFMessage :=
  { fmt := C8newFmt, d := [("Roll", .vint 1), ("Pitch", .vint 2)],
    fieldnames := ["Roll", "Pitch"], timestamp := none }

/-- Witness for C8: the concrete declaration of type 5 (`ATT`, columns
`Roll,Pitch`) followed by decoding a record of type 5. -/
theorem C8_schema_roundtrip_witness :
    (∃ st', binParseNext C8unpack C8st1 = .ok (some C8m1, st')
      ∧ dictGet st'.formats (.vint 5) = some C8newFmt
      ∧ C8newFmt.columns = pySplitComma "Roll,Pitch")
    ∧ (∃ st', binParseNext C8unpack C8st2 = .ok (some C8m2, st')
      ∧ C8m2.fieldnames = C8newFmt.columns) := by
  constructor
  · have h := C8_schema_roundtrip.1 C8unpack C8st1 0x80 fmtFMT 5 10 "ATT" "bb" "Roll,Pitch"
      C8newFmt C8m1 (by decide) (by decide) (by decide) (by decide) (by decide) (by decide)
      (by decide) (by decide) (by decide)
    simpa using h
  · have h := C8_schema_roundtrip.2 C8unpack C8st2 5 C8newFmt [.vint 1, .vint 2] C8m2
      (by decide) (by decide) (by decide) (by decide) (by decide) (by decide) (by decide)
    simpa using h

/-! ### Step lemmas for the `_fill_msg_queue` loop -/

/-- A record whose type is not `GPS` is appended to the batch and the
loop continues: no anchor check fires. -/
theorem fillLoop_cons_nonGPS (m : DFMessage) (rest : List DFMessage)
    (counts : List (String × ℤ)) (st : FillState) (h : m.get_type ≠ "GPS") :
    fillLoop (m :: rest) counts st
      = fillLoop rest (bumpCount counts m.get_type) { st with queue := st.queue ++ [m] } := by
  simp only [fillLoop, Bind.bind, Except.bind, h, if_false, Pure.pure, Except.pure]
  rw [if_neg (by simp)]

/-- A first `GPS` anchor (truthy derived time, no `last_gps_time` yet)
seeds `last_gps_time` and the loop continues. -/
theorem fillLoop_cons_seed (m : DFMessage) (rest : List DFMessage)
    (counts : List (String × ℤ)) (st : FillState) (h : m.get_type = "GPS")
    (t : ℚ) (hgt : getGpsTime m = .ok (some t)) (ht : t ≠ 0)
    (hlast : st.last_gps_time = none) :
    fillLoop (m :: rest) counts st
      = fillLoop rest (bumpCount counts "GPS")
          { st with queue := st.queue ++ [m], last_gps_time := some t } := by
  simp only [fillLoop, Bind.bind, Except.bind, h, if_true, hgt, truthyTime, hlast]
  rw [if_neg (by simp)]
  simp [ht, Pure.pure, Except.pure]

/-- A second `GPS` anchor (truthy derived time, `last_gps_time` already
set) triggers the flush. -/
theorem fillLoop_cons_flush (m : DFMessage) (rest : List DFMessage)
    (counts : List (String × ℤ)) (st : FillState) (h : m.get_type = "GPS")
    (t t0 : ℚ) (hgt : getGpsTime m = .ok (some t)) (ht : t ≠ 0)
    (hlast : st.last_gps_time = some t0) :
    fillLoop (m :: rest) counts st
      = flushQueue (some t) (some "GPS") (bumpCount counts "GPS")
          { st with queue := st.queue ++ [m] } rest := by
  simp only [fillLoop, Bind.bind, Except.bind, h, if_true, hgt, truthyTime, hlast]
  rw [if_neg (by simp)]
  simp [ht, Pure.pure, Except.pure]

/-- Accumulation of a run of non-`GPS` records. -/
theorem fillLoop_append_nonGPS (xs : List DFMessage) (rest : List DFMessage)
    (counts : List (String × ℤ)) (st : FillState)
    (h : ∀ m ∈ xs, m.get_type ≠ "GPS") :
    fillLoop (xs ++ rest) counts st
      = fillLoop rest (xs.foldl (fun cs m => bumpCount cs m.get_type) counts)
          { st with queue := st.queue ++ xs } := by
  induction xs generalizing counts st with
  | nil => simp
  | cons a t ih =>
    rw [List.cons_append, fillLoop_cons_nonGPS a _ _ _ (h a (by simp))]
    rw [ih _ _ (fun m hm => h m (by simp [hm]))]
    simp

/-! ### Claim C9: delivery order -/

/-- A successful flush always leaves the queue as a stable sort (by
descending timestamp) of the assigned batch. -/
theorem flushQueue_queue (gps_time : Option ℚ) (m_type : Option String)
    (counts : List (String × ℤ)) (st : FillState) (rest : List DFMessage)
    (st' : FillState) (rest' : List DFMessage) (r : Option ℕ)
    (h : flushQueue gps_time m_type counts st rest = .ok (st', rest', r)) :
    ∃ l, st'.queue = List.insertionSort queueRel l := by
  unfold flushQueue at h
  simp only [Bind.bind, Except.bind] at h
  repeat' split at h
  all_goals first
    | (simp only [Except.ok.injEq, Prod.mk.injEq] at h
       exact ⟨_, by rw [← h.1]⟩)
    | exact absurd h (by simp)

/-- Any successful run of the fill loop ends with an empty queue or a
sorted one. -/
theorem fillLoop_queue_sorted (stream : List DFMessage) (counts : List (String × ℤ))
    (st : FillState) (st' : FillState) (rest : List DFMessage) (r : Option ℕ)
    (h : fillLoop stream counts st = .ok (st', rest, r)) :
    st'.queue = [] ∨ ∃ l, st'.queue = List.insertionSort queueRel l := by
  induction stream generalizing counts st with
  | nil =>
    simp only [fillLoop] at h
    split at h
    · rename_i hlen
      simp only [Except.ok.injEq, Prod.mk.injEq] at h
      left
      rw [← h.1]
      exact List.eq_nil_of_length_eq_zero hlen
    · exact Or.inr (flushQueue_queue _ _ _ _ _ _ _ _ h)
  | cons m t ih =>
    simp only [fillLoop, Bind.bind, Except.bind, Pure.pure, Except.pure] at h
    split at h
    · rename_i hlen
      simp at hlen
    · repeat' split at h
      all_goals first
        | exact absurd h (by simp)
        | exact ih _ _ h
        | exact Or.inr (flushQueue_queue _ _ _ _ _ _ _ _ h)

/-- The MODE stage of `_update_state` never touches the queue state. -/
theorem updateStateMode_fill (modeApm modeAcm : ℤ → String) (m : DFMessage)
    (s s' : ReaderState) (h : updateStateMode modeApm modeAcm m s = .ok s') :
    s'.fill = s.fill := by
  unfold updateStateMode at h
  simp only [Bind.bind, Except.bind, Pure.pure, Except.pure] at h
  repeat' split at h
  all_goals (try simp only [Except.ok.injEq, reduceCtorEq] at h)
  all_goals rw [← h]

/-- `_update_state` never touches the queue state. -/
theorem updateState_fill (modeApm modeAcm : ℤ → String) (m : DFMessage)
    (s s' : ReaderState) (h : updateState modeApm modeAcm m s = .ok s') :
    s'.fill = s.fill := by
  unfold updateState at h
  simp only [Bind.bind, Except.bind, Pure.pure, Except.pure] at h
  repeat' split at h
  all_goals first
    | (have h2 := updateStateMode_fill _ _ _ _ _ h
       simpa using h2)
    | simp at h

/-- C9: within a reconstructed batch, records are delivered in
non-decreasing assigned-timestamp order.  Part 1: a fill starting from an
empty queue leaves the queue sorted by descending timestamp (so `pop()`
from the end dequeues in ascending order).  Part 2: two successive
`recv_msg` calls that pop from the same batch yield records whose
timestamps are non-decreasing. -/
theorem C9_delivery_order :
    (∀ (stream : List DFMessage) (st st' : FillState) (rest : List DFMessage)
       (r : Option ℕ),
      st.queue = [] →
      fillMsgQueue stream st = .ok (st', rest, r) →
      List.Pairwise queueRel st'.queue)
    ∧ (∀ (modeApm modeAcm : ℤ → String) (s : ReaderState) (m1 m2 : DFMessage)
         (s1 s2 : ReaderState),
      List.Pairwise queueRel s.fill.queue →
      s.fill.queue ≠ [] →
      recvMsg modeApm modeAcm s = .ok (some m1, s1) →
      s1.fill.queue ≠ [] →
      recvMsg modeApm modeAcm s1 = .ok (some m2, s2) →
      optTimeLe m1.timestamp m2.timestamp) := by
  constructor
  · intro stream st st' rest r hq h
    unfold fillMsgQueue at h
    rw [if_neg (by simp [hq])] at h
    rcases fillLoop_queue_sorted _ _ _ _ _ _ h with h' | ⟨l, h'⟩
    · rw [h']
      exact List.Pairwise.nil
    · rw [h']
      exact List.sorted_insertionSort queueRel l
  · intro modeApm modeAcm s m1 m2 s1 s2 hsort hne h1 hne1 h2
    have key : ∀ (s : ReaderState) (m : DFMessage) (s' : ReaderState),
        s.fill.queue ≠ [] → recvMsg modeApm modeAcm s = .ok (some m, s') →
        ∃ hx : s.fill.queue ≠ [], m = s.fill.queue.getLast hx
          ∧ s'.fill.queue = s.fill.queue.dropLast := by
      intro s m s' hne h
      unfold recvMsg at h
      rw [if_neg (by simp [hne])] at h
      simp only [Bind.bind, Except.bind, Pure.pure, Except.pure] at h
      rw [dif_neg (by simp [hne])] at h
      simp only [Bind.bind, Except.bind] at h
      cases hupd : updateState modeApm modeAcm
          (s.fill.queue.getLast (by simpa using (by simp [hne] : ¬s.fill.queue.length = 0)))
          { s with fill := { s.fill with queue := s.fill.queue.dropLast } } with
      | error e =>
        rw [hupd] at h
        exact absurd h (by simp)
      | ok s'' =>
        rw [hupd] at h
        simp only [Except.ok.injEq, Prod.mk.injEq, Option.some.injEq] at h
        refine ⟨hne, h.1.symm, ?_⟩
        rw [← h.2]
        rw [updateState_fill _ _ _ _ _ hupd]
    obtain ⟨hx1, hm1, hq1⟩ := key s m1 s1 hne h1
    obtain ⟨hx2, hm2, hq2⟩ := key s1 m2 s2 hne1 h2
    have hmem2 : m2 ∈ s.fill.queue.dropLast := by
      have h' : m2 ∈ s1.fill.queue := by
        rw [hm2]
        exact List.getLast_mem hx2
      rwa [hq1] at h'
    have hql : s.fill.queue.dropLast ++ [s.fill.queue.getLast hx1] = s.fill.queue :=
      List.dropLast_append_getLast hx1
    have hpair : List.Pairwise queueRel
        (s.fill.queue.dropLast ++ [s.fill.queue.getLast hx1]) := by
      rw [hql]
      exact hsort
    rw [List.pairwise_append] at hpair
    have hrel := hpair.2.2 m2 hmem2 (s.fill.queue.getLast hx1) (by simp)
    rw [hm1]
    exact hrel

/-- The sorted queue produced by the C9 witness fill run. -/
def C9fill : FillState :=
  { queue := [{ mkGPS 102000 with timestamp := some 102 },
              { mkGPS 100000 with timestamp := some 100 }],
    last_gps_time := some 102, msg_periods := [] }

/-- Reader state holding that batch. -/
def C9rs : ReaderState :=
  { stream := [], fill := C9fill, messages := [], params := [], flightmode := "UNKNOWN" }

/-- Reader state after the first receive. -/
def C9rs1 : ReaderState :=
  { stream := [],
    fill := { queue := [{ mkGPS 102000 with timestamp := some 102 }],
              last_gps_time := some 102, msg_periods := [] },
    messages := [("GPS", { mkGPS 100000 with timestamp := some 100 })],
    params := [], flightmode := "UNKNOWN" }

/-- Reader state after the second receive. -/
def C9rs2 : ReaderState :=
  { stream := [],
    fill := { queue := [], last_gps_time := some 102, msg_periods := [] },
    messages := [("GPS", { mkGPS 102000 with timestamp := some 102 })],
    params := [], flightmode := "UNKNOWN" }

/-- Witness for C9: a two-anchor batch is left sorted by the fill, and
two successive receives deliver non-decreasing timestamps (100 then
102). -/
theorem C9_delivery_order_witness :
    List.Pairwise queueRel C9fill.queue
    ∧ optTimeLe ({ mkGPS 100000 with timestamp := some (100 : ℚ) }).timestamp
        ({ mkGPS 102000 with timestamp := some (102 : ℚ) }).timestamp := by
  constructor
  · exact C9_delivery_order.1 [mkGPS 100000, mkGPS 102000] initFillState C9fill []
      (some 2) (by decide) (by decide)
  · exact C9_delivery_order.2 (fun _ => "UNKNOWN") (fun _ => "UNKNOWN") C9rs
      ({ mkGPS 100000 with timestamp := some 100 })
      ({ mkGPS 102000 with timestamp := some 102 }) C9rs1 C9rs2
      (by decide) (by decide) (by decide) (by decide) (by decide)

/-! ### Claim C2: end of stream with a pending batch -/

/-- C2 (evidence of the code bug): on a log that ends while the batch is
non-empty, with records buffered before the last GPS record, the
queue-fill computation raises (the end-of-log flush computes
`gps_time - last_gps_time` with `gps_time = None`) instead of
timestamping and delivering the remaining records. -/
theorem C2_end_of_stream_raises :
    fillMsgQueue [mkATT 1, mkGPS 100000, mkATT 2] initFillState
      = .error ("TypeError: unsupported operand type for -: NoneType") := by decide

/-! ### Claim C3: GPS2 and the batching loop -/

/-- Counterexample to C3: a `GPS2` record with derivable time does not
terminate the accumulating batch the way a `GPS` record does.  With the
stream `GPS(100s), ATT, GPS2(102s)` the fill operation ends the batch at
end-of-stream, discards everything back through the last `GPS`, and
returns an empty queue; with `GPS(102s)` in its place it flushes a
3-record batch. -/
theorem C3_counterexample :
    (fillMsgQueue [mkGPS 100000, mkATT 1, mkGPS2 102000] initFillState).map
        (fun r => r.1.queue.length) = .ok 0
    ∧ (fillMsgQueue [mkGPS 100000, mkATT 1, mkGPS 102000] initFillState).map
        (fun r => r.1.queue.length) = .ok 3
    ∧ ¬ ((Except.ok 0 : Except String ℕ) = .ok 3) := by
  refine ⟨by decide, by decide, by decide⟩

/-- C3 amended: the batching loop of `_fill_msg_queue` never treats a
`GPS2` record as a time anchor: it neither terminates the batch nor
seeds `last_anchor_time`; the record is simply appended to the batch and
the loop continues (only records of type exactly `GPS` are anchors).
(`GPS2` records do receive their own derived time later, during
timestamp assignment.) -/
theorem C3_amended_gps2_not_anchor (m : DFMessage) (rest : List DFMessage)
    (counts : List (String × ℤ)) (st : FillState) (h : m.get_type = "GPS2") :
    fillLoop (m :: rest) counts st
      = fillLoop rest (bumpCount counts "GPS2")
          { st with queue := st.queue ++ [m] } := by
  rw [fillLoop_cons_nonGPS m rest counts st (by rw [h]; decide), h]

/-! ### Lemmas about the timestamp-assignment loop (for claim C1) -/

theorem dictSet_get_self {α β : Type} [DecidableEq α] (d : List (α × β)) (k : α) (v : β)
    (h : dictGet d k = some v) : dictSet d k v = d := by
  induction d with
  | nil => simp [dictGet] at h
  | cons p rest ih =>
    obtain ⟨k0, v0⟩ := p
    by_cases hk : k0 = k
    · subst hk
      have h' : v0 = v := by simpa [dictGet] using h
      simp [dictSet, h']
    · simp only [dictGet, if_neg hk] at h
      simp [dictSet, hk, ih h]

theorem mapIdx_congr {α β : Type} (f g : ℕ → α → β) (l : List α)
    (h : ∀ i a, f i a = g i a) : l.mapIdx f = l.mapIdx g := by
  induction l generalizing f g with
  | nil => simp
  | cons a t ih =>
    simp only [List.mapIdx_cons]
    rw [h 0 a, ih _ _ (fun i x => h (i + 1) x)]

/-- Folding the per-record count bump over a run of same-typed records. -/
theorem foldl_bump_uniform (ty : String) (xs : List DFMessage)
    (h : ∀ m ∈ xs, m.get_type = ty) :
    ∀ counts : List (String × ℤ),
      xs.foldl (fun cs m => bumpCount cs m.get_type) counts
        = if xs.isEmpty then counts
          else dictSet counts ty (((dictGet counts ty).getD 0) + xs.length) := by
  induction xs with
  | nil =>
    intro counts
    simp
  | cons a t ih =>
    intro counts
    have ha := h a (by simp)
    simp only [List.foldl_cons, ha, List.isEmpty_cons, if_false, Bool.false_eq_true]
    rw [ih (fun m hm => h m (by simp [hm])) (bumpCount counts ty)]
    by_cases ht : t.isEmpty
    · rw [if_pos ht]
      have ht0 : t.length = 0 := by
        cases t with
        | nil => rfl
        | cons b u => simp at ht
      simp only [bumpCount, List.length_cons, ht0]
      norm_num
    · rw [if_neg ht]
      simp only [bumpCount, dictGet_dictSet_self, Option.getD_some, dictSet_dictSet_self,
        List.length_cons]
      congr 1
      push_cast
      ring

/-- The timestamp the assignment loop produces for a record of a type
whose remaining-count is `c`, given the flush anchor time `gt` and the
learned period `p` (`gt - p*c + p*0.5`). -/
def slotTime (gt p c : ℚ) (j : ℕ) : ℚ := gt - p * (c - j) + p * (0.5 : ℚ)

/-- Assignment step on a `GPS`/`GPS2` record with truthy derived time:
the timestamp is the derived time; the dicts are untouched. -/
theorem assignStep_gps (g d : ℚ) (counts : List (String × ℤ)) (i : DFMessage)
    (cd : List (String × ℤ)) (per : List (String × ℚ))
    (h : i.get_type = "GPS" ∨ i.get_type = "GPS2") (t : ℚ)
    (hgt : getGpsTime i = .ok (some t)) (ht : t ≠ 0) :
    assignStep g d counts i cd per = .ok ({ i with timestamp := some t }, cd, per) := by
  simp only [assignStep, Bind.bind, Except.bind, if_pos h, hgt, Pure.pure, Except.pure]
  rw [if_pos ⟨h, by simp [truthyTime, ht]⟩]

/-- Assignment step on a plain record (not an anchor type, no own `T`
field): learn the period and assign the centered backward slot. -/
theorem assignStep_plain (g d : ℚ) (counts : List (String × ℤ)) (i : DFMessage)
    (cd : List (String × ℤ)) (per : List (String × ℚ))
    (h1 : i.get_type ≠ "GPS") (h2 : i.get_type ≠ "GPS2") (hT : "T" ∉ i.fieldnames)
    (k : ℤ) (hk : dictGet counts i.get_type = some k) (hk0 : ((k : ℤ) : ℚ) ≠ 0)
    (cdv : ℤ) (hcd : dictGet cd i.get_type = some cdv) :
    assignStep g d counts i cd per
      = .ok ({ i with timestamp := some (g - (d / k) * cdv + (d / k) * (0.5 : ℚ)) },
          dictSet cd i.get_type (cdv - 1), dictSet per i.get_type (d / k)) := by
  have hor : ¬ (i.get_type = "GPS" ∨ i.get_type = "GPS2") := by
    rintro (h | h)
    · exact h1 h
    · exact h2 h
  simp only [assignStep, Bind.bind, Except.bind, if_neg hor, Pure.pure, Except.pure,
    hT, if_false, hk, hcd, pyDiv]
  rw [if_neg (by simp [hor])]
  rw [if_neg hk0]

/-- The assignment loop distributes over append. -/
theorem assignLoop_append (g d : ℚ) (counts : List (String × ℤ))
    (l1 l2 : List DFMessage) :
    ∀ cd per, assignLoop g d counts (l1 ++ l2) cd per
      = (assignLoop g d counts l1 cd per).bind (fun r1 =>
          (assignLoop g d counts l2 r1.2.1 r1.2.2).bind (fun r2 =>
            .ok (r1.1 ++ r2.1, r2.2.1, r2.2.2))) := by
  induction l1 with
  | nil =>
    intro cd per
    simp only [List.nil_append, assignLoop, Bind.bind, Except.bind]
    cases assignLoop g d counts l2 cd per with
    | error e => rfl
    | ok r => rfl
  | cons a t ih =>
    intro cd per
    simp only [List.cons_append, assignLoop]
    cases hstep : assignStep g d counts a cd per with
    | error e => rfl
    | ok r =>
      obtain ⟨m', cd', per'⟩ := r
      simp only [Bind.bind, Except.bind, List.append_eq]
      rw [ih cd' per']
      cases assignLoop g d counts t cd' per' with
      | error e => rfl
      | ok r1 =>
        simp only [Bind.bind, Except.bind]
        cases assignLoop g d counts l2 r1.2.1 r1.2.2 with
        | error e => rfl
        | ok r2 => rfl

/-- Closed form of the assignment loop on a run of same-typed plain
records: the `j`-th record gets the centered backward slot for
remaining-count `cdv - j`, the countdown drops by the run length, the
period is learned once. -/
theorem assignLoop_uniform (g d : ℚ) (counts : List (String × ℤ)) (ty : String)
    (h1 : ty ≠ "GPS") (h2 : ty ≠ "GPS2") (k : ℤ)
    (hk : dictGet counts ty = some k) (hk0 : ((k : ℤ) : ℚ) ≠ 0) :
    ∀ (xs : List DFMessage), (∀ m ∈ xs, m.get_type = ty ∧ "T" ∉ m.fieldnames) →
    ∀ (cdv : ℤ) (cd : List (String × ℤ)) (per : List (String × ℚ)),
      dictGet cd ty = some cdv →
      assignLoop g d counts xs cd per
        = .ok (xs.mapIdx (fun j x =>
              { x with timestamp := some (slotTime g (d / k) ((cdv : ℤ) : ℚ) j) }),
            dictSet cd ty (cdv - xs.length),
            if xs.isEmpty then per else dictSet per ty (d / k)) := by
  intro xs
  induction xs with
  | nil =>
    intro _ cdv cd per hcd
    simp only [assignLoop, List.mapIdx_nil, List.isEmpty_nil, if_true, List.length_nil]
    rw [show cdv - (0 : ℕ) = cdv by omega]
    rw [dictSet_get_self cd ty cdv hcd]
  | cons a t ih =>
    intro hall cdv cd per hcd
    have ha := hall a (by simp)
    simp only [assignLoop, Bind.bind, Except.bind]
    rw [assignStep_plain g d counts a cd per (by rw [ha.1]; exact h1)
      (by rw [ha.1]; exact h2) ha.2 k (by rw [ha.1]; exact hk) hk0 cdv
      (by rw [ha.1]; exact hcd)]
    dsimp only
    rw [ha.1]
    rw [ih (fun m hm => hall m (by simp [hm])) (cdv - 1) (dictSet cd ty (cdv - 1))
      (dictSet per ty (d / k)) (dictGet_dictSet_self _ _ _)]
    dsimp only
    simp only [List.mapIdx_cons, List.length_cons, List.isEmpty_cons, dictSet_dictSet_self,
      Except.ok.injEq, Prod.mk.injEq, ite_self, Bool.false_eq_true, if_false]
    refine ⟨?_, ?_, ?_⟩
    · congr 1
      · simp only [DFMessage.mk.injEq, Option.some.injEq, slotTime, true_and, and_true]
        push_cast
        ring
      · exact mapIdx_congr _ _ t (by
          intro i x
          simp only [DFMessage.mk.injEq, Option.some.injEq, slotTime, true_and, and_true]
          push_cast
          ring)
    · congr 1
      push_cast
      ring
    · trivial

/-- Full evaluation of a two-anchor batch: a `GPS` anchor at `T0`, then a
run of records of one plain type, then a `GPS` anchor at `T1`.  The
anchor type itself has count 2 in the batch, so the learned period is
`(T1-T0)*2 / k`. -/
theorem fill_two_anchor_eval (T0 T1 : ℚ) (ga gb : DFMessage) (xs : List DFMessage)
    (ty : String) (hT0 : T0 ≠ 0) (hT1 : T1 ≠ 0)
    (hga : ga.get_type = "GPS") (hgb : gb.get_type = "GPS")
    (hta : getGpsTime ga = .ok (some T0)) (htb : getGpsTime gb = .ok (some T1))
    (hxs : ∀ m ∈ xs, m.get_type = ty ∧ "T" ∉ m.fieldnames)
    (hty1 : ty ≠ "GPS") (hty2 : ty ≠ "GPS2") (hne : xs ≠ []) :
    fillMsgQueue (ga :: (xs ++ [gb])) initFillState
      = .ok ({ queue := List.insertionSort queueRel
                 ({ ga with timestamp := some T0 }
                   :: (xs.mapIdx (fun j x =>
                        { x with timestamp := some (slotTime T1
                            ((T1 - T0) * 2 / (xs.length : ℚ)) ((xs.length : ℚ)) j) })
                      ++ [{ gb with timestamp := some T1 }])),
               last_gps_time := some T1,
               msg_periods := [(ty, (T1 - T0) * 2 / (xs.length : ℚ))] },
             [], some (xs.length + 2)) := by
  have hlen0 : xs.length ≠ 0 := fun h => hne (List.eq_nil_of_length_eq_zero h)
  have hkQ : (((xs.length : ℤ) : ℚ)) ≠ 0 := by
    push_cast
    exact_mod_cast hlen0
  have hGPSty : ¬ ("GPS" = ty) := fun h => hty1 h.symm
  have hkZ : dictGet [("GPS", (2 : ℤ)), (ty, (xs.length : ℤ))] ty
      = some ((xs.length : ℤ)) := by
    simp [dictGet, hGPSty]
  unfold fillMsgQueue
  rw [if_neg (by simp [initFillState])]
  rw [fillLoop_cons_seed ga (xs ++ [gb]) [] initFillState hga T0 hta hT0 rfl]
  rw [fillLoop_append_nonGPS xs [gb] _ _ (fun m hm => by
    rw [(hxs m hm).1]
    exact hty1)]
  rw [foldl_bump_uniform ty xs (fun m hm => (hxs m hm).1) _]
  rw [if_neg (by simp [hne])]
  have hc1 : bumpCount ([] : List (String × ℤ)) "GPS" = [("GPS", 1)] := by decide
  rw [hc1]
  have hc2 : dictSet [("GPS", (1 : ℤ))] ty
        (((dictGet [("GPS", (1 : ℤ))] ty).getD 0) + (xs.length : ℤ))
      = [("GPS", (1 : ℤ)), (ty, (xs.length : ℤ))] := by
    simp [dictGet, dictSet, hGPSty]
  rw [hc2]
  rw [fillLoop_cons_flush gb [] _ _ hgb T1 T0 htb hT1 rfl]
  have hc3 : bumpCount [("GPS", (1 : ℤ)), (ty, (xs.length : ℤ))] "GPS"
      = [("GPS", (2 : ℤ)), (ty, (xs.length : ℤ))] := by
    simp [bumpCount, dictGet, dictSet]
  rw [hc3]
  simp only [flushQueue, Bind.bind, Except.bind]
  dsimp only [initFillState]
  have hcnt : dictGet [("GPS", (2 : ℤ)), (ty, (xs.length : ℤ))] "GPS" = some 2 := by
    simp [dictGet]
  rw [hcnt]
  dsimp only
  simp only [List.nil_append, List.singleton_append, List.cons_append]
  simp only [assignLoop, Bind.bind, Except.bind]
  rw [assignStep_gps _ _ _ ga _ _ (Or.inl hga) T0 hta hT0]
  dsimp only
  rw [assignLoop_append _ _ _ xs [gb]]
  rw [assignLoop_uniform _ _ _ ty hty1 hty2 ((xs.length : ℤ)) hkZ hkQ xs hxs
    ((xs.length : ℤ)) _ _ hkZ]
  simp only [Bind.bind, Except.bind]
  simp only [assignLoop, Bind.bind, Except.bind]
  rw [assignStep_gps _ _ _ gb _ _ (Or.inl hgb) T1 htb hT1]
  dsimp only
  rw [if_neg (by simp [hne])]
  simp only [Except.ok.injEq, Prod.mk.injEq, FillState.mk.injEq]
  refine ⟨⟨?_, trivial, ?_⟩, trivial, ?_⟩
  · push_cast
    rfl
  · simp only [dictSet]
    push_cast
    rfl
  · rw [List.length_insertionSort]
    simp only [List.length_cons, List.length_append, List.length_mapIdx,
      List.length_nil, Option.some.injEq]

/-- Witness for the amended C3 at a concrete `GPS2` record. -/
theorem C3_amended_gps2_not_anchor_witness :
    fillLoop [mkGPS2 102000] [] { queue := [mkGPS 100000], last_gps_time := some 100,
                                  msg_periods := [] }
      = fillLoop [] [("GPS2", 1)]
          { queue := [mkGPS 100000, mkGPS2 102000], last_gps_time := some 100,
            msg_periods := [] } := by
  have h := C3_amended_gps2_not_anchor (mkGPS2 102000) []
    [] { queue := [mkGPS 100000], last_gps_time := some 100, msg_periods := [] }
    (by decide)
  simpa using h

/-- C1: counterexample.  For the log GPS(T0=100s), ATT, ATT, GPS(T1=102s)
(k = 2 intervening ATT records), the queue-fill algorithm delivers the
records with timestamps 99, 100, 101, 102: the first ATT timestamp is 99,
not T0 + (T1-T0)/(2k) = 100.5 as claimed, and the ATT spacing is 2, not
(T1-T0)/k = 1 as claimed (the first ATT is even timestamped before the
first anchor). -/
theorem C1_counterexample :
    (Except.map (fun r => r.1.queue.reverse.map (fun m => (m.get_type, m.timestamp)))
        (fillMsgQueue [mkGPS 100000, mkATT 1, mkATT 2, mkGPS 102000] initFillState)
      = .ok [("ATT", some 99), ("GPS", some 100), ("ATT", some 101), ("GPS", some 102)])
    ∧ ¬ ((99 : ℚ) = 100 + (102 - 100) / (2 * 2))
    ∧ ¬ ((101 : ℚ) - 99 = (102 - 100) / 2) :=
  ⟨by decide, by norm_num, by norm_num⟩

/-- C1 (amended): for a log of two GPS anchors with derivable times T0 < T1
bracketing k ≥ 1 records of a single other plain type, the fill computes the
period p = 2*(T1-T0)/k (the anchor type itself occurs twice in the batch, so
the interval is doubled), assigns slot j the timestamp T1 - p*(k-j) + p/2,
and those slots are strictly increasing, evenly spaced by p = 2*(T1-T0)/k,
with first slot T1 - 2*(T1-T0) + (T1-T0)/k (not T0 + (T1-T0)/(2k)). -/
theorem C1_amended_interpolation (T0 T1 : ℚ) (ga gb : DFMessage) (xs : List DFMessage)
    (ty : String) (h0 : 0 < T0) (hlt : T0 < T1)
    (hga : ga.get_type = "GPS") (hgb : gb.get_type = "GPS")
    (hta : getGpsTime ga = .ok (some T0)) (htb : getGpsTime gb = .ok (some T1))
    (hxs : ∀ m ∈ xs, m.get_type = ty ∧ "T" ∉ m.fieldnames)
    (hty1 : ty ≠ "GPS") (hty2 : ty ≠ "GPS2") (hne : xs ≠ []) :
    (fillMsgQueue (ga :: (xs ++ [gb])) initFillState
      = .ok ({ queue := List.insertionSort queueRel
                 ({ ga with timestamp := some T0 }
                   :: (xs.mapIdx (fun j x =>
                        { x with timestamp := some (slotTime T1
                            ((T1 - T0) * 2 / (xs.length : ℚ)) ((xs.length : ℚ)) j) })
                      ++ [{ gb with timestamp := some T1 }])),
               last_gps_time := some T1,
               msg_periods := [(ty, (T1 - T0) * 2 / (xs.length : ℚ))] },
             [], some (xs.length + 2)))
    ∧ (∀ j : ℕ,
        slotTime T1 ((T1 - T0) * 2 / (xs.length : ℚ)) ((xs.length : ℚ)) j
          < slotTime T1 ((T1 - T0) * 2 / (xs.length : ℚ)) ((xs.length : ℚ)) (j + 1))
    ∧ (∀ j : ℕ,
        slotTime T1 ((T1 - T0) * 2 / (xs.length : ℚ)) ((xs.length : ℚ)) (j + 1)
          - slotTime T1 ((T1 - T0) * 2 / (xs.length : ℚ)) ((xs.length : ℚ)) j
          = (T1 - T0) * 2 / (xs.length : ℚ))
    ∧ slotTime T1 ((T1 - T0) * 2 / (xs.length : ℚ)) ((xs.length : ℚ)) 0
        = T1 - 2 * (T1 - T0) + (T1 - T0) / (xs.length : ℚ) := by
  have hT0 : T0 ≠ 0 := ne_of_gt h0
  have hT1 : T1 ≠ 0 := ne_of_gt (lt_trans h0 hlt)
  have hlen0 : xs.length ≠ 0 := fun h => hne (List.eq_nil_of_length_eq_zero h)
  have hlenQ : (0 : ℚ) < (xs.length : ℚ) := by
    exact_mod_cast Nat.pos_of_ne_zero hlen0
  have hp : (0 : ℚ) < (T1 - T0) * 2 / (xs.length : ℚ) :=
    div_pos (by linarith) hlenQ
  have hspace : ∀ j : ℕ,
      slotTime T1 ((T1 - T0) * 2 / (xs.length : ℚ)) ((xs.length : ℚ)) (j + 1)
        - slotTime T1 ((T1 - T0) * 2 / (xs.length : ℚ)) ((xs.length : ℚ)) j
        = (T1 - T0) * 2 / (xs.length : ℚ) := by
    intro j
    simp only [slotTime]
    push_cast
    ring
  refine ⟨fill_two_anchor_eval T0 T1 ga gb xs ty hT0 hT1 hga hgb hta htb hxs hty1 hty2 hne,
    ?_, hspace, ?_⟩
  · intro j
    have h := hspace j
    linarith
  · have hne' : ((xs.length : ℚ)) ≠ 0 := ne_of_gt hlenQ
    simp only [slotTime]
    push_cast
    field_simp
    ring

/-- Witness for the amended C1 at the concrete log
GPS(100s), ATT, ATT, GPS(102s). -/
theorem C1_amended_interpolation_witness :
    fillMsgQueue (mkGPS 100000 :: ([mkATT 1, mkATT 2] ++ [mkGPS 102000])) initFillState
      = .ok ({ queue := List.insertionSort queueRel
                 ({ mkGPS 100000 with timestamp := some 100 }
                   :: ([mkATT 1, mkATT 2].mapIdx (fun j x =>
                        { x with timestamp := some (slotTime 102
                            ((102 - 100) * 2 / (([mkATT 1, mkATT 2].length : ℕ) : ℚ))
                            ((([mkATT 1, mkATT 2].length : ℕ)) : ℚ) j) })
                      ++ [{ mkGPS 102000 with timestamp := some 102 }])),
               last_gps_time := some 102,
               msg_periods := [("ATT",
                 (102 - 100) * 2 / (([mkATT 1, mkATT 2].length : ℕ) : ℚ))] },
             [], some ([mkATT 1, mkATT 2].length + 2)) :=
  (C1_amended_interpolation 100 102 (mkGPS 100000) (mkGPS 102000)
    [mkATT 1, mkATT 2] "ATT" (by norm_num) (by norm_num) (by decide) (by decide)
    (by decide) (by decide) (by decide) (by decide) (by decide) (by decide)).1

end DF
